import Mathlib

/-!
# Request logger middleware (`logger.go`)

A shallow embedding of the Traefik request-logging middleware and the proofs of
its specified properties.

Modelling conventions.

* Go `string` and `[]byte` are both finite byte sequences and the conversions
  between them copy the bytes; both are `GoString`, a list of bytes. `len` is the
  list length. Go string literals are written `str "..."` (their UTF-8 bytes).
* Go `int` is `Int`; lengths are `Nat` and are cast where they meet an `int`.
* A Go `map[string]T` is an association list read with `mapGet` and written with
  `mapSet`; a well-formed map has no repeated key.
* The real response sink (`http.ResponseWriter`) is the response writer of
  `net/http`, as a record of what it has taken for the client: the final status,
  once fixed, and the body bytes, together with the list of calls it received.
  Its first body write fixes the status to 200 when none was sent, and a later
  `WriteHeader` is ignored. It refuses what `net/http` refuses: `WriteHeader`
  panics on a code outside 100..999, a code 1xx other than 101 is an interim
  response and not the final status, and `Write` returns an error for a body
  under a status that allows none or beyond the declared `Content-Length`.
* The downstream handler is a function from the request it is given to the list
  of calls it makes on the response writer it is given. It does not modify the
  request.
* Library behaviour that depends on the outside world is a field of `Env`: the
  random source, the clock and the JSON encoder. `json.Marshal` cannot fail on a
  `requestLog` (strings, an int and string maps) and standard output takes every
  write; the two branches of `ServeHTTP` that only print such an error are
  therefore never entered and do not appear. The error `Flush` prints when the
  sink refuses the body does appear: `fmt.Println` writes it to standard output.
* A run-time panic (index out of range, invalid status code) is the value `none`.
* `Hijack` only delegates to the real sink and takes no part in the properties
  below; it is left out, and so are hijacked connections in the sink. For a
  `HEAD` request the sink takes the body bytes like any other and sends none of
  them on; the record of the sink is what it has taken.
-/

namespace RequestLogger

/-! ## Byte strings -/

/-- One byte. -/
abbrev Byte := Fin 256

/-- Go `string` and `[]byte`: a finite sequence of bytes. -/
abbrev GoString := List Byte

/-- The Go string literal with the given text: its UTF-8 bytes. -/
def str (s : String) : GoString := s.toUTF8.data.toList.map (fun b => b.val)

/-! ## Go maps -/

/-- Go map read `m[k]`: the value stored under `k`, if there is one. -/
def mapGet {β : Type} (m : List (GoString × β)) (k : GoString) : Option β :=
  match m with
  | [] => none
  | (k', v) :: rest => if k' = k then some v else mapGet rest k

/-- Go map write `m[k] = v`: replaces the value under `k` or adds the entry. -/
def mapSet {β : Type} (m : List (GoString × β)) (k : GoString) (v : β) : List (GoString × β) :=
  match m with
  | [] => [(k, v)]
  | (k', v') :: rest => if k' = k then (k, v) :: rest else (k', v') :: mapSet rest k v

/-- Go `delete(m, k)`: the map without the entry under `k`. -/
def mapDel {β : Type} (m : List (GoString × β)) (k : GoString) : List (GoString × β) :=
  m.filter (fun e => e.1 ≠ k)

/-- The keys of a Go map. -/
def mapKeys {β : Type} (m : List (GoString × β)) : List GoString := m.map Prod.fst

/-! ## `net/textproto` and `net/http` headers -/

/-- The bytes allowed in a header field name (`validHeaderFieldByte`): the token
characters of RFC 7230: digits, letters and fifteen punctuation bytes, given
here by their codes. -/
def validHeaderFieldByte (c : Byte) : Bool :=
  (48 ≤ c.val && c.val ≤ 57) || (65 ≤ c.val && c.val ≤ 90) || (97 ≤ c.val && c.val ≤ 122)
    || [33, 35, 36, 37, 38, 39, 42, 43, 45, 46, 94, 95, 96, 124, 126].contains c.val

/-- The casing loop of `canonicalMIMEHeaderKey`: upper case at the start and after
each dash, lower case elsewhere. -/
def canonicalCase (upper : Bool) : GoString → GoString
  | [] => []
  | c :: rest =>
    let c : Byte :=
      if upper && 97 ≤ c.val && c.val ≤ 122 then Fin.ofNat (c.val - 32)
      else if !upper && 65 ≤ c.val && c.val ≤ 90 then Fin.ofNat (c.val + 32)
      else c
    c :: canonicalCase (c.val == 45) rest

/-- Go `textproto.CanonicalMIMEHeaderKey`: a key made of valid header bytes only is
put in canonical case, any other key is returned unchanged. -/
def CanonicalMIMEHeaderKey (s : GoString) : GoString :=
  if s.all validHeaderFieldByte then canonicalCase true s else s

/-- Go `http.Header`, a `map[string][]string`. -/
abbrev Header := List (GoString × List GoString)

/-- Go `http.Header.Get`: the first value under the canonical form of `key`, and the
empty string when the key is absent or has no value. -/
def Header.Get (h : Header) (key : GoString) : GoString :=
  match mapGet h (CanonicalMIMEHeaderKey key) with
  | some (v :: _) => v
  | _ => []

/-- Go `http.Header.Set`: `h[canonical key] = []string{value}`. -/
def Header.Set (h : Header) (key value : GoString) : Header :=
  mapSet h (CanonicalMIMEHeaderKey key) [value]

/-- Go `http.Header.Add`: `h[canonical key] = append(h[canonical key], value)`. -/
def Header.Add (h : Header) (key value : GoString) : Header :=
  mapSet h (CanonicalMIMEHeaderKey key) ((mapGet h (CanonicalMIMEHeaderKey key)).getD [] ++ [value])

/-- Go `http.Header.Del`: `delete(h, canonical key)`. -/
def Header.Del (h : Header) (key : GoString) : Header :=
  mapDel h (CanonicalMIMEHeaderKey key)

/-! ## Request bodies (`io`, `bytes`) -/

/-- An `io.ReadCloser`: the bytes of the stream and, when reading it fails, the
number of bytes delivered before the error. -/
structure ReadCloser where
  data : GoString
  failAfter : Option Nat
  deriving DecidableEq, Repr

/-- Go `io.ReadAll`: the bytes read until EOF or the first error, and whether an
error occurred. -/
def io.ReadAll (r : ReadCloser) : GoString × Bool :=
  match r.failAfter with
  | none => (r.data, false)
  | some n => (r.data.take n, true)

/-- Go `io.NopCloser(bytes.NewBuffer(b))`: a reader over exactly the bytes `b`. -/
def io.NopCloser (b : GoString) : ReadCloser := { data := b, failAfter := none }

/-! ## The real response sink -/

/-- The digit loop of `strconv.ParseUint` in base 10: the value of a string of
decimal digits, `none` at any other byte. -/
def parseDigits (acc : Nat) : GoString → Option Nat
  | [] => some acc
  | c :: rest =>
    if 48 ≤ c.val ∧ c.val ≤ 57 then parseDigits (acc * 10 + (c.val - 48)) rest else none

/-- Go `strconv.ParseUint(s, 10, 64)`: `none` for an error, which an empty string, a
byte that is no digit and a value of 2^64 or more all are. -/
def strconv.ParseUint (s : GoString) : Option Nat :=
  if s = [] then none
  else
    match parseDigits 0 s with
    | none => none
    | some un => if un < 2 ^ 64 then some un else none

/-- Go `strconv.ParseInt(s, 10, 64)`: an optional sign, then `ParseUint`, then the
range check against 2^63; `none` for an error. -/
def strconv.ParseInt (s : GoString) : Option Int :=
  match s with
  | [] => none
  | c :: rest =>
    let neg : Bool := c.val == 45
    let digits := if c.val = 43 ∨ c.val = 45 then rest else s
    match strconv.ParseUint digits with
    | none => none
    | some un =>
      if !neg ∧ un ≥ 2 ^ 63 then none
      else if neg ∧ un > 2 ^ 63 then none
      else some (if neg then -(un : Int) else (un : Int))

/-- Go `bodyAllowedForStatus`: no body under 1xx, 204 and 304. -/
def bodyAllowedForStatus (status : Int) : Bool :=
  if 100 ≤ status ∧ status ≤ 199 then false
  else if status = 204 then false
  else if status = 304 then false
  else true

/-- The text of `http.ErrBodyNotAllowed`. -/
def ErrBodyNotAllowed : GoString :=
  str "http: request method or response status code does not allow body"

/-- The text of `http.ErrContentLength`. -/
def ErrContentLength : GoString :=
  str "http: wrote more than the declared Content-Length"

/-- The text of `io.ErrShortWrite`. -/
def ErrShortWrite : GoString := str "short write"

/-- A call received by the real response sink. -/
inductive SinkCall where
  | WriteHeader (code : Int)
  | Write (b : GoString)
  deriving DecidableEq, Repr

/-- What the sink keeps once the final status line is written: the status, the
`Content-Length` its headers declared at that moment, when there was a valid
one, and the body bytes counted so far, refused ones included. -/
structure WroteHeader where
  status : Int
  contentLength : Option Nat
  written : Nat
  deriving DecidableEq, Repr

/-- The real `http.ResponseWriter`: its live header collection, the final status
line once written, the body bytes it has taken, and the calls received in
order. -/
structure ResponseWriter where
  header : Header
  wrote : Option WroteHeader
  body : GoString
  received : List SinkCall
  deriving DecidableEq, Repr

/-- The final status the sink has written, if any. -/
def ResponseWriter.status (w : ResponseWriter) : Option Int :=
  w.wrote.map (fun h => h.status)

/-- The final-status path of `WriteHeader` in `net/http`: the status is fixed; a
`Content-Length` header that parses to a number at least 0 is the declared
length, any other non-empty one is deleted from the headers. -/
def writeFinalHeader (header : Header) (code : Int) : Header × WroteHeader :=
  let cl := Header.Get header (str "Content-Length")
  if cl ≠ [] then
    match strconv.ParseInt cl with
    | some v =>
      if v ≥ 0 then (header, { status := code, contentLength := some v.toNat, written := 0 })
      else
        (Header.Del header (str "Content-Length"),
          { status := code, contentLength := none, written := 0 })
    | none =>
      (Header.Del header (str "Content-Length"),
        { status := code, contentLength := none, written := 0 })
  else (header, { status := code, contentLength := none, written := 0 })

/-- Go `WriteHeader` on the real sink. Once the final status is written the call is
superfluous and ignored. Otherwise a code outside 100..999 panics (`none`), a
code 1xx other than 101 sends an interim response and leaves the final status
open, and any other code is written as the final status. -/
def ResponseWriter.WriteHeader (w : ResponseWriter) (code : Int) : Option ResponseWriter :=
  let w := { w with received := w.received ++ [SinkCall.WriteHeader code] }
  match w.wrote with
  | some _ => some w
  | none =>
    if code < 100 ∨ code > 999 then none
    else if 100 ≤ code ∧ code ≤ 199 ∧ code ≠ 101 then some w
    else
      let final := writeFinalHeader w.header code
      some { w with header := final.1, wrote := some final.2 }

/-- Go `Write` on the real sink: writes status 200 first when no final status was
written; an empty slice is then accepted; a body the status does not allow is
refused with `ErrBodyNotAllowed`; the bytes are counted and refused with
`ErrContentLength` when the count passes the declared length; otherwise they
are sent. Returns the number of bytes written and the error, if any. -/
def ResponseWriter.Write (w : ResponseWriter) (b : GoString) :
    ResponseWriter × Nat × Option GoString :=
  let w := { w with received := w.received ++ [SinkCall.Write b] }
  let final :=
    match w.wrote with
    | some h => (w.header, h)
    | none => writeFinalHeader w.header 200
  let w := { w with header := final.1, wrote := some final.2 }
  if b.length = 0 then (w, 0, none)
  else if !bodyAllowedForStatus final.2.status then (w, 0, some ErrBodyNotAllowed)
  else
    let h := { final.2 with written := final.2.written + b.length }
    let w := { w with wrote := some h }
    match h.contentLength with
    | some n => if h.written > n then (w, 0, some ErrContentLength)
                else ({ w with body := w.body ++ b }, b.length, none)
    | none => ({ w with body := w.body ++ b }, b.length, none)

/-- Go `io.Copy(dst, buf)` for a `*bytes.Buffer` source, that is `buf.WriteTo(dst)`:
one `Write` of the whole unread content when it is not empty. The bytes written
leave the buffer; an error of the write is returned, and so is `ErrShortWrite`
when fewer bytes were written than offered; without error the buffer is reset.
Returns the sink, the unread content left in the buffer and the error. -/
def io.Copy (dst : ResponseWriter) (buf : GoString) :
    ResponseWriter × GoString × Option GoString :=
  if buf.length > 0 then
    let written := dst.Write buf
    match written.2.2 with
    | some err => (written.1, buf.drop written.2.1, some err)
    | none =>
      if written.2.1 ≠ buf.length then (written.1, buf.drop written.2.1, some ErrShortWrite)
      else (written.1, [], none)
  else (dst, [], none)

/-! ## The capture wrapper -/

/-- The source's `wrappedResponseWriter`: the real sink, the buffer (its unread
content) and the recorded status code. -/
structure wrappedResponseWriter where
  w : ResponseWriter
  buf : GoString
  code : Int
  deriving DecidableEq, Repr

/-- Method `Header`: the real sink's live header collection. -/
def wrappedResponseWriter.Header (w : wrappedResponseWriter) : Header := w.w.header

/-- Method `Write`: `w.buf.Write(b)`, which appends `b` and returns `len(b)` and
a nil error (`false`). -/
def wrappedResponseWriter.Write (w : wrappedResponseWriter) (b : GoString) :
    wrappedResponseWriter × Nat × Bool :=
  ({ w with buf := w.buf ++ b }, b.length, false)

/-- Method `WriteHeader`: `w.code = code`. -/
def wrappedResponseWriter.WriteHeader (w : wrappedResponseWriter) (code : Int) :
    wrappedResponseWriter :=
  { w with code := code }

/-- Method `Flush`: `w.w.WriteHeader(w.code)`, then `io.Copy(w.w, w.buf)` and, when
the copy returns an error, `fmt.Println(err)`. Returns the wrapper and the lines
printed to standard output; `none` when `WriteHeader` panics. -/
def wrappedResponseWriter.Flush (w : wrappedResponseWriter) :
    Option (wrappedResponseWriter × List GoString) :=
  match w.w.WriteHeader w.code with
  | none => none
  | some sink =>
    let copied := io.Copy sink w.buf
    let printed : List GoString :=
      match copied.2.2 with
      | some err => [err ++ str "\n"]
      | none => []
    some ({ w with w := copied.1, buf := copied.2.1 }, printed)

/-! ## Requests and handlers -/

/-- The parts of `*http.Request` the middleware uses; `URL` is `r.URL.String()`. -/
structure Request where
  Method : GoString
  URL : GoString
  Host : GoString
  Header : Header
  Body : Option ReadCloser
  deriving DecidableEq, Repr

/-- What a handler does with the `http.ResponseWriter` it is given. -/
inductive Call where
  | HeaderAdd (key value : GoString)
  | HeaderSet (key value : GoString)
  | HeaderAssign (key : GoString) (values : List GoString)
  | WriteHeader (code : Int)
  | Write (b : GoString)
  deriving DecidableEq, Repr

/-- An `http.Handler` as seen by the middleware: the calls it makes on its
response writer, as a function of the request it receives. -/
abbrev Handler := Request → List Call

/-- One handler call on the capture wrapper. Header calls go through
`Header()` and so change the real sink's header collection at once. -/
def wrappedResponseWriter.call (w : wrappedResponseWriter) : Call → wrappedResponseWriter
  | Call.HeaderAdd key value => { w with w := { w.w with header := Header.Add w.Header key value } }
  | Call.HeaderSet key value => { w with w := { w.w with header := Header.Set w.Header key value } }
  | Call.HeaderAssign key values => { w with w := { w.w with header := mapSet w.Header key values } }
  | Call.WriteHeader code => w.WriteHeader code
  | Call.Write b => (w.Write b).1

/-- The handler's calls made in order on the capture wrapper. -/
def wrappedResponseWriter.calls (w : wrappedResponseWriter) (cs : List Call) :
    wrappedResponseWriter :=
  cs.foldl wrappedResponseWriter.call w

/-! ## Configuration and the log record -/

/-- The source's `ConfigLimit`. -/
structure ConfigLimit where
  MaxBodySize : Int
  deriving DecidableEq, Repr

/-- The source's `Config`. -/
structure Config where
  RequestIDHeaderName : GoString
  StatusCodes : List Int
  ContentTypes : List GoString
  Limits : ConfigLimit
  deriving DecidableEq, Repr

/-- Go `CreateConfig`: the zero configuration. -/
def CreateConfig : Config :=
  { RequestIDHeaderName := [], StatusCodes := [], ContentTypes := [],
    Limits := { MaxBodySize := 0 } }

/-- The source's `logRequest`: the plugin instance. -/
structure logRequest where
  name : GoString
  next : Handler
  contentTypes : List GoString
  statusCodes : List Int
  maxBodySize : Int
  requestIDHeaderName : GoString

/-- Go `New`: the plugin instance for a configuration. -/
def New (next : Handler) (config : Config) (name : GoString) : logRequest :=
  { name := name,
    next := next,
    requestIDHeaderName := config.RequestIDHeaderName,
    contentTypes := config.ContentTypes,
    statusCodes := config.StatusCodes,
    maxBodySize := config.Limits.MaxBodySize }

/-- The source's `requestData`. -/
structure requestData where
  URI : GoString
  Host : GoString
  Headers : List (GoString × GoString)
  Body : GoString
  Verb : GoString
  IPAddress : GoString
  Time : GoString
  TransferEncoding : GoString
  deriving DecidableEq, Repr

/-- The source's `responseData`. -/
structure responseData where
  Time : GoString
  Status : Int
  Headers : List (GoString × GoString)
  Body : GoString
  TransferEncoding : GoString
  deriving DecidableEq, Repr

/-- The source's `requestLog`. -/
structure requestLog where
  RequestID : GoString
  Request : requestData
  Response : responseData
  Direction : GoString
  Metadata : GoString
  deriving DecidableEq, Repr

/-! ## The environment -/

/-- What the middleware takes from outside: `rand` is the random source (`none`
when reading it fails, otherwise the bytes it delivers in order), `requestTime`
and `responseTime` are the two readings `time.Now().Format(time.RFC3339)`, and
`marshal` is `json.Marshal` on a log record. -/
structure Env where
  rand : Option (Nat → Byte)
  requestTime : GoString
  responseTime : GoString
  marshal : requestLog → GoString

/-- Go `rand.Read` on a slice of `n` bytes: the `n` random bytes, or `none` on error. -/
def rand.Read (env : Env) (n : Nat) : Option GoString :=
  env.rand.map (fun next => (List.range n).map next)

/-- The table `hextable` of `encoding/hex`. -/
def hextable : GoString := str "0123456789abcdef"

/-- Go `hex.EncodeToString`: for each byte `v` the digits `hextable[v>>4]` and
`hextable[v&0x0f]`. -/
def hex.EncodeToString (src : GoString) : GoString :=
  src.flatMap (fun v => [hextable.getD (v.val >>> 4) 0, hextable.getD (v.val &&& 0x0f) 0])

/-! ## The helpers of `logger.go` -/

/-- Go `generateRandomID`: the hex encoding of `length` random bytes and a nil error,
or the empty string and an error (`true`). -/
def generateRandomID (env : Env) (length : Nat) : GoString × Bool :=
  match rand.Read env length with
  | none => ([], true)
  | some bytes => (hex.EncodeToString bytes, false)

/-- The loop of `allowContentType`: true at the first entry equal to `contentType`. -/
def allowContentTypeLoop (contentType : GoString) : List GoString → Bool
  | [] => false
  | ct :: rest => if ct = contentType then true else allowContentTypeLoop contentType rest

/-- Go `allowContentType`. -/
def allowContentType (contentType : GoString) (contentTypes : List GoString) : Bool :=
  if contentTypes.length = 0 then true
  else if contentType = [] then false
  else allowContentTypeLoop contentType contentTypes

/-- The loop of `allowStatusCode`: true at the first entry equal to `statusCode`. -/
def allowStatusCodeLoop (statusCode : Int) : List Int → Bool
  | [] => false
  | sc :: rest => if sc = statusCode then true else allowStatusCodeLoop statusCode rest

/-- Go `allowStatusCode`. -/
def allowStatusCode (statusCode : Int) (statusCodes : List Int) : Bool :=
  if statusCodes.length = 0 then true
  else allowStatusCodeLoop statusCode statusCodes

/-- Go `allowBodySize`. -/
def allowBodySize (bodySize maxBodySize : Int) : Bool :=
  bodySize ≤ maxBodySize

/-- The body of the header loops: `headers[name] = values[0]`, which panics
(`none`) when `values` is empty. -/
def firstValuesStep (headers : List (GoString × GoString)) (entry : GoString × List GoString) :
    Option (List (GoString × GoString)) :=
  match entry.2 with
  | [] => none
  | v :: _ => some (mapSet headers entry.1 v)

/-- The header loops of `ServeHTTP` (lines 114-117 and 136-139): for each entry
`headers[name] = values[0]`, starting from the empty map. -/
def firstValues (h : Header) : Option (List (GoString × GoString)) :=
  h.foldlM firstValuesStep []

/-- An argument of `fmt.Sprintf`. -/
inductive FmtArg where
  | int (n : Int)
  | string (s : GoString)
  deriving DecidableEq, Repr

/-- Go `fmt.Sprintf` for the verbs the source uses: `%d` (bytes 37, 100) prints an int
in decimal, `%s` (bytes 37, 115) prints a string, any other byte is copied. The
source passes one int and one string in this order; a verb without a matching
argument, which it never has, is copied too. -/
def fmt.Sprintf : GoString → List FmtArg → GoString
  | [], _ => []
  | [c], _ => [c]
  | c :: v :: rest, args =>
    if c = 37 ∧ v = 100 then
      match args with
      | FmtArg.int n :: args => str (toString n) ++ fmt.Sprintf rest args
      | _ => c :: v :: fmt.Sprintf rest args
    else if c = 37 ∧ v = 115 then
      match args with
      | FmtArg.string s :: args => s ++ fmt.Sprintf rest args
      | _ => c :: v :: fmt.Sprintf rest args
    else c :: fmt.Sprintf (v :: rest) args

/-! ## `ServeHTTP` -/

/-- What a call of `ServeHTTP` leaves behind: the request as mutated, the real
sink once `ServeHTTP` is over (the deferred `Flush` has run), the strings
written to standard output, the assembled log record, `none` when a panic
interrupted the assembly, and whether `ServeHTTP` ended in a panic. -/
structure Outcome where
  request : Request
  sink : ResponseWriter
  stdout : List GoString
  log : Option requestLog
  panic : Bool
  deriving DecidableEq, Repr

/-- The capture wrapper as `ServeHTTP` builds it (lines 102-106): the real sink, an
empty buffer and code 200. -/
def newWrappedResponseWriter (w : ResponseWriter) : wrappedResponseWriter :=
  { w := w, buf := [], code := 200 }

/-- The values `ServeHTTP` has in hand when it calls the next handler: the request
it passes on, the correlation ID and the bytes read from the inbound body. -/
structure Prepared where
  request : Request
  requestID : GoString
  requestBody : GoString
  deriving DecidableEq, Repr

/-- Lines 88-100 of `ServeHTTP`: the correlation header is read, generated when
empty and set on the request; the inbound body is read whole and replaced by a
reader over the bytes read. -/
def prepare (env : Env) (p : logRequest) (r : Request) : Prepared :=
  let requestID := (generateRandomID env 16).1
  let requestID :=
    if Header.Get r.Header p.requestIDHeaderName ≠ [] then Header.Get r.Header p.requestIDHeaderName
    else requestID
  let r := { r with Header := Header.Set r.Header p.requestIDHeaderName requestID }
  let requestBody : GoString :=
    match r.Body with
    | none => []
    | some body => (io.ReadAll body).1
  let r := { r with Body := some (io.NopCloser requestBody) }
  { request := r, requestID := requestID, requestBody := requestBody }

/-- Lines 114-159 of `ServeHTTP`: the log record built from the request, its
body, the capture wrapper after the handler and the captured response bytes. -/
def assemble (env : Env) (p : logRequest) (r : Request) (requestID requestBody : GoString)
    (resp : wrappedResponseWriter) (respBodyBytes : GoString) : Option requestLog := do
  let headers ← firstValues r.Header
  let reqData : requestData :=
    { URI := r.URL, Host := r.Host, Headers := headers, Time := env.requestTime, Verb := r.Method,
      Body := [], IPAddress := [], TransferEncoding := [] }
  let reqData : requestData :=
    if allowBodySize requestBody.length p.maxBodySize
        && allowContentType (Header.Get r.Header (str "Content-Type")) p.contentTypes then
      { reqData with Body := requestBody }
    else
      { reqData with
        Body := fmt.Sprintf
          (str "Request body too large to log or wrong content type. Size: %d bytes, Content-type: %s")
          [FmtArg.int requestBody.length, FmtArg.string (Header.Get r.Header (str "Content-Type"))] }
  let responseBodyBytes := (io.ReadAll (io.NopCloser respBodyBytes)).1
  let respHeaders ← firstValues resp.Header
  let resData : responseData :=
    { Headers := respHeaders, Status := resp.code, Time := env.responseTime,
      Body := [], TransferEncoding := [] }
  let resData : responseData :=
    if allowBodySize responseBodyBytes.length p.maxBodySize
        && allowContentType (Header.Get resp.Header (str "Content-Type")) p.contentTypes then
      { resData with Body := responseBodyBytes }
    else
      { resData with
        Body := fmt.Sprintf
          (str "Response body too large to log or wrong content type. Size: %d bytes, Content-type: %s")
          [FmtArg.int responseBodyBytes.length,
           FmtArg.string (Header.Get resp.Header (str "Content-Type"))] }
  pure
    { RequestID := requestID, Request := reqData, Response := resData,
      Direction := str "Incomming", Metadata := [] }

/-- Go `ServeHTTP`. The handler runs on a fresh capture wrapper; `Flush` is deferred;
the captured bytes are written to the real sink `w` (line 112); the record is
assembled and, when the status filter allows it, its JSON line is written to
standard output; the deferred `Flush` runs last, also after a panic, and what it
prints comes last on standard output. -/
def ServeHTTP (env : Env) (p : logRequest) (w : ResponseWriter) (r : Request) : Outcome :=
  let prepared := prepare env p r
  let r := prepared.request
  let requestID := prepared.requestID
  let requestBody := prepared.requestBody
  let resp := newWrappedResponseWriter w
  let resp := resp.calls (p.next r)
  let respBodyBytes := resp.buf
  let resp := { resp with w := (resp.w.Write respBodyBytes).1 }
  let log := assemble env p r requestID requestBody resp respBodyBytes
  let stdout : List GoString :=
    match log with
    | none => []
    | some record =>
      if allowStatusCode resp.code p.statusCodes then [env.marshal record ++ str "\n"] else []
  let flushed := resp.Flush
  { request := r,
    sink :=
      match flushed with
      | none => resp.w
      | some done => done.1.w,
    stdout :=
      match flushed with
      | none => stdout
      | some done => stdout ++ done.2,
    log := log,
    panic := log.isNone || flushed.isNone }

/-! ## Notions used to state the properties -/

/-- The status code a handler sets: the argument of a `WriteHeader` call. -/
def Call.code? : Call → Option Int
  | Call.WriteHeader code => some code
  | _ => none

/-- The bytes a handler writes: the argument of a `Write` call. -/
def Call.bytes? : Call → Option GoString
  | Call.Write b => some b
  | _ => none

/-- The status code set by a sequence of handler calls: the argument of the last
`WriteHeader` call, 200 when there is none. -/
def statusSet (cs : List Call) : Int := ((cs.filterMap Call.code?).getLast?).getD 200

/-- The bytes written by a sequence of handler calls: the arguments of its `Write`
calls concatenated in call order. -/
def bytesWritten (cs : List Call) : GoString := (cs.filterMap Call.bytes?).flatten

/-- Every name of the header collection carries at least one value. -/
abbrev everyNameHasValue (h : Header) : Prop := ∀ e ∈ h, e.2 ≠ []

/-- The real sink as a request finds it: nothing sent, nothing received. -/
def freshSink (header : Header) : ResponseWriter :=
  { header := header, wrote := none, body := [], received := [] }

/-- The capture wrapper at the moment the handler returns. -/
def captured (env : Env) (p : logRequest) (w : ResponseWriter) (r : Request) :
    wrappedResponseWriter :=
  (newWrappedResponseWriter w).calls (p.next (prepare env p r).request)

/-- The capture wrapper after line 112, where the captured bytes have been written
to the real sink; this is the wrapper the record is assembled from and the
deferred `Flush` runs on. -/
def afterWrite (env : Env) (p : logRequest) (w : ResponseWriter) (r : Request) :
    wrappedResponseWriter :=
  { captured env p w r with w := ((captured env p w r).w.Write (captured env p w r).buf).1 }

/-- The `Content-Length` a header collection declares to the sink: the number its
first value parses to, when that is at least 0. -/
def declaredContentLength (h : Header) : Option Nat :=
  match strconv.ParseInt (Header.Get h (str "Content-Length")) with
  | some v => if v ≥ 0 then some v.toNat else none
  | none => none

/-! ## Inputs taken from the test suite -/

/-- The helper `prepareConfig` of `logger_test.go`. -/
def prepareConfig (contentTypes : List GoString) (maxBodySize : Int) (statusCodes : List Int) :
    Config :=
  { CreateConfig with
    ContentTypes := contentTypes,
    Limits := { MaxBodySize := maxBodySize },
    RequestIDHeaderName := str "X-Request-ID",
    StatusCodes := statusCodes }

/-- An environment for the examples: a working random source, two clock readings
and an encoder that prints the correlation ID of the record. -/
def testEnv : Env :=
  { rand := some (fun i => Fin.ofNat (17 * i + 3)),
    requestTime := str "2024-05-01T10:00:00Z",
    responseTime := str "2024-05-01T10:00:01Z",
    marshal := fun record => str "\x7b\"request_id\":\"" ++ record.RequestID ++ str "\"\x7d" }

/-- The request of the POST tests: body `{"message": "hello"}`, no header. -/
def postRequest : Request :=
  { Method := str "POST", URL := str "http://localhost", Host := str "localhost", Header := [],
    Body := some { data := str "\x7b\"message\": \"hello\"\x7d", failAfter := none } }

/-- The request of the GET tests: no body, no header. -/
def getRequest : Request :=
  { Method := str "GET", URL := str "http://localhost", Host := str "localhost", Header := [],
    Body := none }

/-- The handler of `TestPostJsonWithStatusCode`: a JSON error answered with 500. -/
def errorHandler : Handler := fun _ =>
  [Call.HeaderAdd (str "Content-Type") (str "application/json"),
   Call.WriteHeader 500,
   Call.Write (str "\x7b\"message\": \"Internal Server Error\"\x7d")]

/-- The handler of `TestPostJsonWithStatusCodeFalse`: a JSON answer with 200. -/
def okHandler : Handler := fun _ =>
  [Call.HeaderAdd (str "Content-Type") (str "application/json"),
   Call.WriteHeader 200,
   Call.Write (str "\x7b\"message\": \"OK\"\x7d")]

/-- A handler that declares a `Content-Length` of 1 and then writes the two bytes
`ok`. -/
def overlongHandler : Handler := fun _ =>
  [Call.HeaderSet (str "Content-Length") (str "1"), Call.WriteHeader 200, Call.Write (str "ok")]

/-- A handler that suppresses the automatic `Date` header the way `net/http`
documents it, `w.Header()["Date"] = nil`, and answers `ok`. -/
def noDateHandler : Handler := fun _ =>
  [Call.HeaderAssign (str "Date") [], Call.Write (str "ok")]

/-! ## Lemmas -/

set_option maxRecDepth 100000

theorem calls_cons (w : wrappedResponseWriter) (c : Call) (cs : List Call) :
    w.calls (c :: cs) = (w.call c).calls cs := rfl

theorem calls_concat (w : wrappedResponseWriter) (cs : List Call) (c : Call) :
    w.calls (cs ++ [c]) = (w.calls cs).call c := by
  simp [wrappedResponseWriter.calls, List.foldl_append]

theorem calls_buf (w : wrappedResponseWriter) (cs : List Call) :
    (w.calls cs).buf = w.buf ++ bytesWritten cs := by
  induction cs generalizing w with
  | nil => simp [wrappedResponseWriter.calls, bytesWritten]
  | cons c cs ih =>
    rw [calls_cons, ih]
    cases c <;>
      simp [wrappedResponseWriter.call, wrappedResponseWriter.Write,
        wrappedResponseWriter.WriteHeader, bytesWritten, Call.bytes?]

theorem calls_code (w : wrappedResponseWriter) (cs : List Call) :
    (w.calls cs).code = ((cs.filterMap Call.code?).getLast?).getD w.code := by
  induction cs using List.reverseRecOn with
  | nil => simp [wrappedResponseWriter.calls]
  | append_singleton cs c ih =>
    rw [calls_concat]
    cases c <;>
      simp [wrappedResponseWriter.call, wrappedResponseWriter.Write,
        wrappedResponseWriter.WriteHeader, Call.code?, List.filterMap_append, ih]

theorem calls_wrote (w : wrappedResponseWriter) (cs : List Call) :
    (w.calls cs).w.wrote = w.w.wrote ∧ (w.calls cs).w.body = w.w.body
      ∧ (w.calls cs).w.received = w.w.received := by
  induction cs generalizing w with
  | nil => simp [wrappedResponseWriter.calls]
  | cons c cs ih =>
    rw [calls_cons]
    obtain ⟨h1, h2, h3⟩ := ih (w.call c)
    rw [h1, h2, h3]
    cases c <;>
      simp [wrappedResponseWriter.call, wrappedResponseWriter.Write,
        wrappedResponseWriter.WriteHeader]

theorem calls_sent (w : wrappedResponseWriter) (cs : List Call) :
    (w.calls cs).w.status = w.w.status ∧ (w.calls cs).w.body = w.w.body
      ∧ (w.calls cs).w.received = w.w.received := by
  obtain ⟨h1, h2, h3⟩ := calls_wrote w cs
  exact ⟨by simp [ResponseWriter.status, h1], h2, h3⟩

theorem status_eq_none (w : ResponseWriter) : w.status = none ↔ w.wrote = none := by
  simp [ResponseWriter.status]

theorem parseInt_nil : strconv.ParseInt [] = none := rfl

theorem writeFinalHeader_wrote (h : Header) (code : Int) :
    (writeFinalHeader h code).2
      = { status := code, contentLength := declaredContentLength h, written := 0 } := by
  unfold writeFinalHeader declaredContentLength
  by_cases hcl : Header.Get h (str "Content-Length") = []
  · simp [hcl, parseInt_nil]
  · simp only [ne_eq, hcl, not_false_eq_true, if_true]
    cases hparse : strconv.ParseInt (Header.Get h (str "Content-Length")) with
    | none => simp
    | some v =>
      by_cases hv : v ≥ 0
      · simp [hv]
      · simp [hv]

theorem writeFinalHeader_clean (h : Header) (code : Int)
    (hget : Header.Get (writeFinalHeader h code).1 (str "Content-Length") = []) :
    declaredContentLength h = none := by
  unfold writeFinalHeader at hget
  unfold declaredContentLength
  by_cases hcl : Header.Get h (str "Content-Length") = []
  · simp [hcl, parseInt_nil]
  · simp only [ne_eq, hcl, not_false_eq_true, if_true] at hget
    cases hparse : strconv.ParseInt (Header.Get h (str "Content-Length")) with
    | none => simp
    | some v =>
      by_cases hv : v ≥ 0
      · simp only [hparse, hv, if_true] at hget
        exact absurd hget hcl
      · simp [hv]

theorem write_of_wrote (w : ResponseWriter) (b : GoString) (h : WroteHeader)
    (hw : w.wrote = some h) :
    (w.Write b).1.header = w.header ∧ (w.Write b).1.status = some h.status
      ∧ (w.Write b).1.received = w.received ++ [SinkCall.Write b] := by
  unfold ResponseWriter.Write
  simp only [hw, ResponseWriter.status]
  split
  · simp
  · split
    · simp
    · split
      · split <;> simp
      · simp

theorem write_wrote (w : ResponseWriter) (b : GoString) :
    ∃ h, (w.Write b).1.wrote = some h := by
  unfold ResponseWriter.Write
  simp only
  split
  · exact ⟨_, rfl⟩
  · split
    · exact ⟨_, rfl⟩
    · split
      · split <;> exact ⟨_, rfl⟩
      · exact ⟨_, rfl⟩

theorem write_result (w : ResponseWriter) (b : GoString) :
    ((w.Write b).2.2 = none ∧ (w.Write b).2.1 = b.length)
      ∨ (w.Write b).2.2 = some ErrBodyNotAllowed
      ∨ (w.Write b).2.2 = some ErrContentLength := by
  unfold ResponseWriter.Write
  simp only
  split
  · rename_i h0
    left; exact ⟨rfl, h0.symm⟩
  · split
    · right; left; rfl
    · split
      · split
        · right; right; rfl
        · left; exact ⟨rfl, rfl⟩
      · left; exact ⟨rfl, rfl⟩

theorem write_taken (w : ResponseWriter) (b : GoString) (h : WroteHeader)
    (hw : w.wrote = some h) (hallowed : bodyAllowedForStatus h.status = true)
    (hlen : ∀ n, h.contentLength = some n → h.written + b.length ≤ n) :
    (w.Write b).2.2 = none ∧ (w.Write b).1.body = w.body ++ b := by
  unfold ResponseWriter.Write
  simp only [hw, hallowed]
  split
  · rename_i h0
    have : b = [] := List.length_eq_zero.mp h0
    simp [this]
  · cases hcl : h.contentLength with
    | none => simp
    | some n =>
      have := hlen n hcl
      have hnot : ¬ h.written + b.length > n := by omega
      simp [hnot]

theorem copy_of_wrote (w : ResponseWriter) (buf : GoString) (h : WroteHeader)
    (hw : w.wrote = some h) :
    (io.Copy w buf).1.header = w.header ∧ (io.Copy w buf).1.status = some h.status := by
  obtain ⟨h1, h2, _⟩ := write_of_wrote w buf h hw
  unfold io.Copy
  by_cases hpos : buf.length > 0
  · simp only [hpos, if_true]
    cases herr : (w.Write buf).2.2 with
    | some err => exact ⟨h1, h2⟩
    | none =>
      by_cases hn : (w.Write buf).2.1 ≠ buf.length
      · rw [if_pos hn]; exact ⟨h1, h2⟩
      · rw [if_neg hn]; exact ⟨h1, h2⟩
  · simp [hpos, ResponseWriter.status, hw]

theorem copy_error (w : ResponseWriter) (buf : GoString) :
    (io.Copy w buf).2.2 = none ∨ (io.Copy w buf).2.2 = some ErrBodyNotAllowed
      ∨ (io.Copy w buf).2.2 = some ErrContentLength := by
  unfold io.Copy
  split
  · rcases write_result w buf with ⟨h1, h2⟩ | h | h
    · simp [h1, h2]
    · simp [h]
    · simp [h]
  · left; rfl

theorem copy_taken (w : ResponseWriter) (buf : GoString) (h : WroteHeader)
    (hw : w.wrote = some h)
    (htaken : buf = [] ∨ (bodyAllowedForStatus h.status = true
      ∧ ∀ n, h.contentLength = some n → h.written + buf.length ≤ n)) :
    io.Copy w buf
      = ((if buf = [] then w else (w.Write buf).1), [], none)
      ∧ (io.Copy w buf).1.body = w.body ++ buf := by
  unfold io.Copy
  by_cases hbuf : buf = []
  · simp [hbuf]
  · have hpos : buf.length > 0 := List.length_pos.mpr hbuf
    rcases htaken with h0 | ⟨hallowed, hlen⟩
    · exact absurd h0 hbuf
    · obtain ⟨herr, hbody⟩ := write_taken w buf h hw hallowed hlen
      have hn : (w.Write buf).2.1 = buf.length := by
        rcases write_result w buf with ⟨_, h2⟩ | h' | h'
        · exact h2
        · rw [herr] at h'; cases h'
        · rw [herr] at h'; cases h'
      simp [hpos, hbuf, herr, hn, hbody]

theorem writeHeader_of_wrote (w : ResponseWriter) (code : Int) (h : WroteHeader)
    (hw : w.wrote = some h) :
    w.WriteHeader code
      = some { w with received := w.received ++ [SinkCall.WriteHeader code] } := by
  simp [ResponseWriter.WriteHeader, hw]

theorem flush_of_wrote (resp : wrappedResponseWriter) (h : WroteHeader)
    (hw : resp.w.wrote = some h) :
    ∃ done, resp.Flush = some done ∧ done.1.w.header = resp.w.header
      ∧ done.1.w.status = some h.status
      ∧ (done.2 = [] ∨ done.2 = [ErrBodyNotAllowed ++ str "\n"]
        ∨ done.2 = [ErrContentLength ++ str "\n"])
      ∧ (bodyAllowedForStatus h.status = true →
          (∀ n, h.contentLength = some n → h.written + resp.buf.length ≤ n) →
          done.2 = [] ∧ done.1.w.body = resp.w.body ++ resp.buf) := by
  have hw' : ({ resp.w with received := resp.w.received ++ [SinkCall.WriteHeader resp.code] }
      : ResponseWriter).wrote = some h := hw
  obtain ⟨hc1, hc2⟩ := copy_of_wrote _ resp.buf h hw'
  have hflush : resp.Flush = some
      ({ resp with
          w := (io.Copy { resp.w with
            received := resp.w.received ++ [SinkCall.WriteHeader resp.code] } resp.buf).1,
          buf := (io.Copy { resp.w with
            received := resp.w.received ++ [SinkCall.WriteHeader resp.code] } resp.buf).2.1 },
        match (io.Copy { resp.w with
            received := resp.w.received ++ [SinkCall.WriteHeader resp.code] } resp.buf).2.2 with
        | some err => [err ++ str "\n"]
        | none => []) := by
    simp only [wrappedResponseWriter.Flush, writeHeader_of_wrote resp.w resp.code h hw]
  refine ⟨_, hflush, hc1, hc2, ?_, ?_⟩
  · rcases copy_error { resp.w with received := resp.w.received ++ [SinkCall.WriteHeader resp.code] }
      resp.buf with h0 | h0 | h0
    · left; simp only [h0]
    · right; left; simp only [h0]
    · right; right; simp only [h0]
  · intro hallowed hlen
    obtain ⟨hcopy, hbody⟩ := copy_taken _ resp.buf h hw' (Or.inr ⟨hallowed, hlen⟩)
    exact ⟨by simp only [hcopy], hbody⟩

theorem mapGet_mapSet_same {β : Type} (m : List (GoString × β)) (k : GoString) (v : β) :
    mapGet (mapSet m k v) k = some v := by
  induction m with
  | nil => simp [mapSet, mapGet]
  | cons e rest ih =>
    obtain ⟨k', v'⟩ := e
    by_cases h : k' = k
    · simp [mapSet, mapGet, h]
    · simp [mapSet, mapGet, h, ih]

theorem mapSet_of_not_mem {β : Type} (m : List (GoString × β)) (k : GoString) (v : β)
    (h : k ∉ mapKeys m) : mapSet m k v = m ++ [(k, v)] := by
  induction m with
  | nil => simp [mapSet]
  | cons e rest ih =>
    obtain ⟨k', v'⟩ := e
    simp only [mapKeys, List.map_cons, List.mem_cons, not_or] at h
    have hne : ¬ k' = k := fun hk => h.1 hk.symm
    simp [mapSet, hne, ih h.2]

theorem header_get_set (h : Header) (key value : GoString) :
    Header.Get (Header.Set h key value) key = value := by
  simp [Header.Get, Header.Set, mapGet_mapSet_same]

theorem foldlM_firstValuesStep_some (h : Header) (acc : List (GoString × GoString))
    (hne : everyNameHasValue h) : ∃ m, h.foldlM firstValuesStep acc = some m := by
  induction h generalizing acc with
  | nil => exact ⟨acc, rfl⟩
  | cons e rest ih =>
    obtain ⟨k, vs⟩ := e
    have hvs : vs ≠ [] := hne (k, vs) (List.mem_cons_self _ _)
    have hrest : everyNameHasValue rest := fun e he => hne e (List.mem_cons_of_mem _ he)
    cases vs with
    | nil => exact absurd rfl hvs
    | cons v tl =>
      simpa [List.foldlM_cons, firstValuesStep] using ih (mapSet acc k v) hrest

theorem firstValues_some (h : Header) (hne : everyNameHasValue h) :
    ∃ m, firstValues h = some m :=
  foldlM_firstValuesStep_some h [] hne

theorem foldlM_firstValuesStep_none (h : Header) (acc : List (GoString × GoString))
    (k : GoString) (hmem : (k, []) ∈ h) : h.foldlM firstValuesStep acc = none := by
  induction h generalizing acc with
  | nil => cases hmem
  | cons e rest ih =>
    obtain ⟨k', vs⟩ := e
    cases vs with
    | nil => simp [List.foldlM_cons, firstValuesStep]
    | cons v tl =>
      have : (k, []) ∈ rest := by
        rcases List.mem_cons.mp hmem with h | h
        · cases h
        · exact h
      simpa [List.foldlM_cons, firstValuesStep] using ih (mapSet acc k' v) this

theorem foldlM_firstValuesStep_eq (h : Header) (acc : List (GoString × GoString))
    (hne : everyNameHasValue h) (hnd : (mapKeys h).Nodup)
    (hdis : ∀ k ∈ mapKeys h, k ∉ mapKeys acc) :
    h.foldlM firstValuesStep acc = some (acc ++ h.map (fun e => (e.1, e.2.headD []))) := by
  induction h generalizing acc with
  | nil => simp
  | cons e rest ih =>
    obtain ⟨k, vs⟩ := e
    have hvs : vs ≠ [] := hne (k, vs) (List.mem_cons_self _ _)
    have hrest : everyNameHasValue rest := fun e he => hne e (List.mem_cons_of_mem _ he)
    simp only [mapKeys, List.map_cons, List.nodup_cons] at hnd
    cases vs with
    | nil => exact absurd rfl hvs
    | cons v tl =>
      have hk : k ∉ mapKeys acc := hdis k (by simp [mapKeys])
      have hdis' : ∀ k' ∈ mapKeys rest, k' ∉ mapKeys (mapSet acc k v) := by
        intro k' hk'
        rw [mapSet_of_not_mem acc k v hk]
        have h1 : k' ∉ mapKeys acc := hdis k' (by simp [mapKeys] at hk' ⊢; exact Or.inr hk')
        have h2 : k' ≠ k := fun h => hnd.1 (h ▸ hk')
        simp only [mapKeys, List.map_append, List.mem_append, not_or] at h1 ⊢
        exact ⟨h1, by simpa using h2⟩
      have := ih (mapSet acc k v) hrest hnd.2 hdis'
      simpa [List.foldlM_cons, firstValuesStep, mapSet_of_not_mem acc k v hk] using this

theorem firstValues_eq (h : Header) (hne : everyNameHasValue h) (hnd : (mapKeys h).Nodup) :
    firstValues h = some (h.map (fun e => (e.1, e.2.headD []))) := by
  simpa [firstValues] using foldlM_firstValuesStep_eq h [] hne hnd (by simp [mapKeys])

theorem write_fresh (w : ResponseWriter) (b : GoString) (hw : w.wrote = none) :
    (w.Write b).1.header = (writeFinalHeader w.header 200).1
      ∧ ∃ h, (w.Write b).1.wrote = some h ∧ h.status = 200
        ∧ h.contentLength = declaredContentLength w.header
        ∧ (declaredContentLength w.header = none → (w.Write b).1.body = w.body ++ b) := by
  have hallowed : bodyAllowedForStatus 200 = true := by decide
  unfold ResponseWriter.Write
  simp only [hw, writeFinalHeader_wrote, hallowed]
  split
  · rename_i h0
    have : b = [] := List.length_eq_zero.mp h0
    exact ⟨rfl, _, rfl, rfl, rfl, fun _ => by simp [this]⟩
  · cases hcl : declaredContentLength w.header with
    | none => exact ⟨rfl, _, rfl, rfl, rfl, fun _ => rfl⟩
    | some n =>
      simp only [Bool.not_true, Bool.false_eq_true, if_false]
      split
      · exact ⟨rfl, _, rfl, rfl, rfl, fun h => by cases h⟩
      · exact ⟨rfl, _, rfl, rfl, rfl, fun h => by cases h⟩

theorem serveHTTP_request (env : Env) (p : logRequest) (w : ResponseWriter) (r : Request) :
    (ServeHTTP env p w r).request = (prepare env p r).request := rfl

theorem serveHTTP_log (env : Env) (p : logRequest) (w : ResponseWriter) (r : Request) :
    (ServeHTTP env p w r).log =
      assemble env p (prepare env p r).request (prepare env p r).requestID
        (prepare env p r).requestBody (afterWrite env p w r) (captured env p w r).buf := rfl

theorem captured_buf (env : Env) (p : logRequest) (w : ResponseWriter) (r : Request) :
    (captured env p w r).buf = bytesWritten (p.next (prepare env p r).request) := by
  simp [captured, calls_buf, newWrappedResponseWriter]

theorem captured_code (env : Env) (p : logRequest) (w : ResponseWriter) (r : Request) :
    (captured env p w r).code = statusSet (p.next (prepare env p r).request) := by
  simp [captured, calls_code, newWrappedResponseWriter, statusSet]

theorem afterWrite_wrote (env : Env) (p : logRequest) (w : ResponseWriter) (r : Request) :
    ∃ h, (afterWrite env p w r).w.wrote = some h :=
  write_wrote _ _

/-- The deferred `Flush` of `ServeHTTP` never panics: line 112 has written the
final status. The sink and the output of the run are those it leaves. -/
theorem serveHTTP_flushed (env : Env) (p : logRequest) (w : ResponseWriter) (r : Request) :
    ∃ done, (afterWrite env p w r).Flush = some done
      ∧ (ServeHTTP env p w r).sink = done.1.w
      ∧ (ServeHTTP env p w r).stdout =
        (match (ServeHTTP env p w r).log with
          | none => []
          | some record =>
            if allowStatusCode (captured env p w r).code p.statusCodes then
              [env.marshal record ++ str "\n"]
            else []) ++ done.2 := by
  obtain ⟨h, hw⟩ := afterWrite_wrote env p w r
  obtain ⟨done, hflush, _⟩ := flush_of_wrote (afterWrite env p w r) h hw
  refine ⟨done, hflush, ?_, ?_⟩
  · show (match (afterWrite env p w r).Flush with
      | none => (afterWrite env p w r).w
      | some done => done.1.w) = done.1.w
    rw [hflush]
  · show (match (afterWrite env p w r).Flush with
      | none => _
      | some done => _ ++ done.2) = _
    rw [hflush]
    rfl

/-- A run of `ServeHTTP` ends in a panic exactly when the assembly of the record
panicked. -/
theorem serveHTTP_panic (env : Env) (p : logRequest) (w : ResponseWriter) (r : Request) :
    (ServeHTTP env p w r).panic = (ServeHTTP env p w r).log.isNone := by
  obtain ⟨done, hflush, _⟩ := serveHTTP_flushed env p w r
  show ((ServeHTTP env p w r).log.isNone || (afterWrite env p w r).Flush.isNone) = _
  rw [hflush]
  simp

theorem serveHTTP_sink_header (env : Env) (p : logRequest) (w : ResponseWriter) (r : Request) :
    (ServeHTTP env p w r).sink.header = (afterWrite env p w r).w.header := by
  obtain ⟨h, hw⟩ := afterWrite_wrote env p w r
  obtain ⟨done, hflush, hheader, _⟩ := flush_of_wrote (afterWrite env p w r) h hw
  obtain ⟨done2, hflush2, hsink, _⟩ := serveHTTP_flushed env p w r
  rw [hflush] at hflush2
  cases hflush2
  rw [hsink, hheader]

/-- What the deferred `Flush` prints: nothing, or the one line of the error with
which the sink refused the body; nothing when the sink had no final status
before and the response headers end without a `Content-Length`. -/
theorem serveHTTP_stdout (env : Env) (p : logRequest) (w : ResponseWriter) (r : Request) :
    ∃ printed, (ServeHTTP env p w r).stdout =
        (match (ServeHTTP env p w r).log with
          | none => []
          | some record =>
            if allowStatusCode (captured env p w r).code p.statusCodes then
              [env.marshal record ++ str "\n"]
            else []) ++ printed
      ∧ (printed = [] ∨ printed = [ErrBodyNotAllowed ++ str "\n"]
        ∨ printed = [ErrContentLength ++ str "\n"])
      ∧ (w.status = none →
          Header.Get (ServeHTTP env p w r).sink.header (str "Content-Length") = [] →
          printed = []) := by
  obtain ⟨h, hw⟩ := afterWrite_wrote env p w r
  obtain ⟨done, hflush, _, _, hprinted, htaken⟩ := flush_of_wrote (afterWrite env p w r) h hw
  obtain ⟨done2, hflush2, _, hstdout⟩ := serveHTTP_flushed env p w r
  rw [hflush] at hflush2
  cases hflush2
  refine ⟨done.2, hstdout, hprinted, ?_⟩
  intro hstatus hget
  rw [serveHTTP_sink_header] at hget
  have hnone : (captured env p w r).w.wrote = none :=
    ((calls_wrote (newWrappedResponseWriter w) _).1).trans ((status_eq_none w).mp hstatus)
  obtain ⟨hhead, h', hw', hs', hcl', _⟩ :=
    write_fresh (captured env p w r).w (captured env p w r).buf hnone
  have hh : h' = h := by
    have : some h' = some h := hw'.symm.trans hw
    exact Option.some.inj this
  subst hh
  have hdeclared : declaredContentLength (captured env p w r).w.header = none := by
    apply writeFinalHeader_clean _ 200
    rw [← hhead]
    exact hget
  refine (htaken ?_ ?_).1
  · rw [hs']; decide
  · intro n hn
    rw [hcl', hdeclared] at hn
    cases hn

/-- The body field of a record: the body when its size and content type are
accepted, the placeholder otherwise. -/
theorem assemble_some (env : Env) (p : logRequest) (r : Request) (requestID requestBody : GoString)
    (resp : wrappedResponseWriter) (respBodyBytes : GoString)
    (hreq : everyNameHasValue r.Header) (hres : everyNameHasValue resp.Header) :
    ∃ headers respHeaders, firstValues r.Header = some headers
      ∧ firstValues resp.Header = some respHeaders
      ∧ assemble env p r requestID requestBody resp respBodyBytes = some
        { RequestID := requestID,
          Request :=
            { URI := r.URL, Host := r.Host, Headers := headers, Time := env.requestTime,
              Verb := r.Method, IPAddress := [], TransferEncoding := [],
              Body :=
                if allowBodySize requestBody.length p.maxBodySize
                    && allowContentType (Header.Get r.Header (str "Content-Type")) p.contentTypes
                then requestBody
                else fmt.Sprintf
                  (str "Request body too large to log or wrong content type. Size: %d bytes, Content-type: %s")
                  [FmtArg.int requestBody.length,
                   FmtArg.string (Header.Get r.Header (str "Content-Type"))] },
          Response :=
            { Headers := respHeaders, Status := resp.code, Time := env.responseTime,
              TransferEncoding := [],
              Body :=
                if allowBodySize respBodyBytes.length p.maxBodySize
                    && allowContentType (Header.Get resp.Header (str "Content-Type"))
                      p.contentTypes
                then respBodyBytes
                else fmt.Sprintf
                  (str "Response body too large to log or wrong content type. Size: %d bytes, Content-type: %s")
                  [FmtArg.int respBodyBytes.length,
                   FmtArg.string (Header.Get resp.Header (str "Content-Type"))] },
          Direction := str "Incomming", Metadata := [] } := by
  obtain ⟨headers, h1⟩ := firstValues_some r.Header hreq
  obtain ⟨respHeaders, h2⟩ := firstValues_some resp.Header hres
  refine ⟨headers, respHeaders, h1, h2, ?_⟩
  simp only [assemble, h1, h2, io.ReadAll, io.NopCloser, Option.bind_eq_bind, Option.some_bind,
    Option.pure_def]
  split <;> split <;> simp_all

theorem allowStatusCodeLoop_iff (statusCode : Int) (statusCodes : List Int) :
    allowStatusCodeLoop statusCode statusCodes = true ↔ statusCode ∈ statusCodes := by
  induction statusCodes with
  | nil => simp [allowStatusCodeLoop]
  | cons sc rest ih =>
    by_cases h : sc = statusCode
    · simp [allowStatusCodeLoop, h]
    · have h' : ¬ statusCode = sc := fun e => h e.symm
      simp [allowStatusCodeLoop, h, h', ih]

theorem allowStatusCode_iff (statusCode : Int) (statusCodes : List Int) :
    allowStatusCode statusCode statusCodes = true ↔
      statusCodes = [] ∨ statusCode ∈ statusCodes := by
  unfold allowStatusCode
  cases statusCodes with
  | nil => simp
  | cons sc rest => simp [allowStatusCodeLoop_iff]

theorem allowContentTypeLoop_iff (contentType : GoString) (contentTypes : List GoString) :
    allowContentTypeLoop contentType contentTypes = true ↔ contentType ∈ contentTypes := by
  induction contentTypes with
  | nil => simp [allowContentTypeLoop]
  | cons ct rest ih =>
    by_cases h : ct = contentType
    · simp [allowContentTypeLoop, h]
    · have h' : ¬ contentType = ct := fun e => h e.symm
      simp [allowContentTypeLoop, h, h', ih]

theorem allowContentType_iff (contentType : GoString) (contentTypes : List GoString) :
    allowContentType contentType contentTypes = true ↔
      contentTypes = [] ∨ (contentType ≠ [] ∧ contentType ∈ contentTypes) := by
  unfold allowContentType
  cases contentTypes with
  | nil => simp
  | cons ct rest =>
    by_cases h : contentType = []
    · simp [h]
    · simp [h, allowContentTypeLoop_iff]

theorem allowBodySize_iff (bodySize maxBodySize : Int) :
    allowBodySize bodySize maxBodySize = true ↔ bodySize ≤ maxBodySize := by
  simp [allowBodySize]

/-- The log record of a run in which every header name carries a value. -/
theorem serveHTTP_record (env : Env) (p : logRequest) (w : ResponseWriter) (r : Request)
    (hreq : everyNameHasValue (ServeHTTP env p w r).request.Header)
    (hres : everyNameHasValue (ServeHTTP env p w r).sink.header) :
    ∃ headers respHeaders,
      firstValues (ServeHTTP env p w r).request.Header = some headers
      ∧ firstValues (ServeHTTP env p w r).sink.header = some respHeaders
      ∧ (ServeHTTP env p w r).log = some
        { RequestID := (prepare env p r).requestID,
          Request :=
            { URI := (prepare env p r).request.URL, Host := (prepare env p r).request.Host,
              Headers := headers, Time := env.requestTime,
              Verb := (prepare env p r).request.Method, IPAddress := [], TransferEncoding := [],
              Body :=
                if allowBodySize (prepare env p r).requestBody.length p.maxBodySize
                    && allowContentType
                      (Header.Get (ServeHTTP env p w r).request.Header (str "Content-Type"))
                      p.contentTypes
                then (prepare env p r).requestBody
                else fmt.Sprintf
                  (str "Request body too large to log or wrong content type. Size: %d bytes, Content-type: %s")
                  [FmtArg.int (prepare env p r).requestBody.length,
                   FmtArg.string
                     (Header.Get (ServeHTTP env p w r).request.Header (str "Content-Type"))] },
          Response :=
            { Headers := respHeaders,
              Status := statusSet (p.next (prepare env p r).request),
              Time := env.responseTime, TransferEncoding := [],
              Body :=
                if allowBodySize (bytesWritten (p.next (prepare env p r).request)).length
                      p.maxBodySize
                    && allowContentType
                      (Header.Get (ServeHTTP env p w r).sink.header (str "Content-Type"))
                      p.contentTypes
                then bytesWritten (p.next (prepare env p r).request)
                else fmt.Sprintf
                  (str "Response body too large to log or wrong content type. Size: %d bytes, Content-type: %s")
                  [FmtArg.int (bytesWritten (p.next (prepare env p r).request)).length,
                   FmtArg.string
                     (Header.Get (ServeHTTP env p w r).sink.header (str "Content-Type"))] },
          Direction := str "Incomming", Metadata := [] } := by
  rw [serveHTTP_sink_header] at hres ⊢
  rw [serveHTTP_request] at hreq ⊢
  have h := assemble_some env p (prepare env p r).request (prepare env p r).requestID
    (prepare env p r).requestBody (afterWrite env p w r) (captured env p w r).buf hreq hres
  rw [serveHTTP_log]
  have hhead : wrappedResponseWriter.Header (afterWrite env p w r)
      = (afterWrite env p w r).w.header := rfl
  have hcode : (afterWrite env p w r).code = (captured env p w r).code := rfl
  rw [hhead, hcode] at h
  simpa only [captured_buf, captured_code] using h

/-- On a sink that has been sent nothing, every run ends with status 200, whatever
the handler set; and when the response headers end without a `Content-Length`
the sink has been sent the written bytes twice. -/
theorem serveHTTP_sink_fresh (env : Env) (p : logRequest) (header : Header) (r : Request) :
    (ServeHTTP env p (freshSink header) r).sink.status = some 200
      ∧ (Header.Get (ServeHTTP env p (freshSink header) r).sink.header (str "Content-Length")
          = [] →
        (ServeHTTP env p (freshSink header) r).sink.body =
          bytesWritten (p.next (prepare env p r).request)
            ++ bytesWritten (p.next (prepare env p r).request)) := by
  obtain ⟨h1, h2, _⟩ := calls_wrote (newWrappedResponseWriter (freshSink header))
    (p.next (prepare env p r).request)
  have h1' : (captured env p (freshSink header) r).w.wrote = none := h1
  have h2' : (captured env p (freshSink header) r).w.body = [] := h2
  obtain ⟨hhead, h, hw, hs, hcl, hbody⟩ :=
    write_fresh (captured env p (freshSink header) r).w (captured env p (freshSink header) r).buf
      h1'
  have hw' : (afterWrite env p (freshSink header) r).w.wrote = some h := hw
  obtain ⟨done, hflush, _, hstatus, _, htaken⟩ :=
    flush_of_wrote (afterWrite env p (freshSink header) r) h hw'
  obtain ⟨done2, hflush2, hsink, _⟩ := serveHTTP_flushed env p (freshSink header) r
  rw [hflush] at hflush2
  cases hflush2
  refine ⟨by rw [hsink, hstatus, hs], ?_⟩
  intro hget
  rw [serveHTTP_sink_header] at hget
  have hdeclared : declaredContentLength (captured env p (freshSink header) r).w.header
      = none := by
    apply writeFinalHeader_clean _ 200
    rw [← hhead]
    exact hget
  have hdone := (htaken (by rw [hs]; decide)
    (by intro n hn; rw [hcl, hdeclared] at hn; cases hn)).2
  have hbuf : (afterWrite env p (freshSink header) r).buf
      = bytesWritten (p.next (prepare env p r).request) := captured_buf env p _ r
  have hbody' : (afterWrite env p (freshSink header) r).w.body
      = bytesWritten (p.next (prepare env p r).request) := by
    have := hbody hdeclared
    rw [h2', List.nil_append] at this
    exact this.trans (captured_buf env p _ r)
  rw [hsink, hdone, hbuf, hbody']

theorem sprintf_request (n : Nat) (ct : GoString) :
    fmt.Sprintf
        (str "Request body too large to log or wrong content type. Size: %d bytes, Content-type: %s")
        [FmtArg.int n, FmtArg.string ct]
      = str "Request body too large to log or wrong content type. Size: " ++ str (toString n)
        ++ str " bytes, Content-type: " ++ ct := by
  have h : fmt.Sprintf
      (str "Request body too large to log or wrong content type. Size: %d bytes, Content-type: %s")
      [FmtArg.int n, FmtArg.string ct]
      = str "Request body too large to log or wrong content type. Size: " ++ (str (toString n)
        ++ (str " bytes, Content-type: " ++ (ct ++ []))) := rfl
  rw [h, List.append_nil, List.append_assoc, List.append_assoc]

theorem sprintf_response (n : Nat) (ct : GoString) :
    fmt.Sprintf
        (str "Response body too large to log or wrong content type. Size: %d bytes, Content-type: %s")
        [FmtArg.int n, FmtArg.string ct]
      = str "Response body too large to log or wrong content type. Size: " ++ str (toString n)
        ++ str " bytes, Content-type: " ++ ct := by
  have h : fmt.Sprintf
      (str "Response body too large to log or wrong content type. Size: %d bytes, Content-type: %s")
      [FmtArg.int n, FmtArg.string ct]
      = str "Response body too large to log or wrong content type. Size: " ++ (str (toString n)
        ++ (str " bytes, Content-type: " ++ (ct ++ []))) := rfl
  rw [h, List.append_nil, List.append_assoc, List.append_assoc]

theorem prepare_header (env : Env) (p : logRequest) (r : Request) :
    (prepare env p r).request.Header
      = Header.Set r.Header p.requestIDHeaderName (prepare env p r).requestID := rfl

theorem prepare_requestID (env : Env) (p : logRequest) (r : Request) :
    (prepare env p r).requestID
      = if Header.Get r.Header p.requestIDHeaderName ≠ [] then
          Header.Get r.Header p.requestIDHeaderName
        else (generateRandomID env 16).1 := rfl

theorem hextable_getD_mem (i : Nat) (h : i < 16) : hextable.getD i 0 ∈ hextable := by
  have hlen : hextable.length = 16 := by decide
  rw [List.getD_eq_getElem hextable 0 (by omega)]
  exact List.getElem_mem _

theorem hex_digit_mem (v : Byte) :
    hextable.getD (v.val >>> 4) 0 ∈ hextable ∧ hextable.getD (v.val &&& 0x0f) 0 ∈ hextable := by
  constructor
  · apply hextable_getD_mem
    have := v.isLt
    rw [Nat.shiftRight_eq_div_pow]
    omega
  · apply hextable_getD_mem
    exact Nat.and_lt_two_pow v.val (by decide : 0x0f < 2 ^ 4)

theorem hex_length (src : GoString) : (hex.EncodeToString src).length = 2 * src.length := by
  induction src with
  | nil => rfl
  | cons v rest ih =>
    simp only [hex.EncodeToString, List.flatMap_cons, List.length_append, List.length_cons,
      List.length_nil] at ih ⊢
    omega

theorem hex_digits (src : GoString) : ∀ c ∈ hex.EncodeToString src, c ∈ hextable := by
  intro c hc
  simp only [hex.EncodeToString, List.mem_flatMap] at hc
  obtain ⟨v, _, hv⟩ := hc
  simp only [List.mem_cons, List.mem_singleton, List.not_mem_nil, or_false] at hv
  rcases hv with h | h
  · rw [h]; exact (hex_digit_mem v).1
  · rw [h]; exact (hex_digit_mem v).2

theorem mapGet_mem {β : Type} (m : List (GoString × β)) (k : GoString) (v : β)
    (h : mapGet m k = some v) : (k, v) ∈ m := by
  induction m with
  | nil => simp [mapGet] at h
  | cons e rest ih =>
    obtain ⟨k', v'⟩ := e
    by_cases hk : k' = k
    · simp only [mapGet, hk, if_true, Option.some.injEq] at h
      simp [hk, h]
    · simp only [mapGet, hk, if_false] at h
      exact List.mem_cons_of_mem _ (ih h)

theorem mapGet_map_first (h : Header) (name : GoString) :
    mapGet (h.map (fun e => (e.1, e.2.headD []))) name
      = (mapGet h name).map (fun values => values.headD []) := by
  induction h with
  | nil => simp [mapGet]
  | cons e rest ih =>
    obtain ⟨k, vs⟩ := e
    by_cases hk : k = name
    · simp [mapGet, hk]
    · simpa [mapGet, hk] using ih

theorem mapKeys_map_first (h : Header) :
    mapKeys (h.map (fun e => (e.1, e.2.headD []))) = mapKeys h := by
  simp [mapKeys, List.map_map, Function.comp_def]

/-- The snapshot of a well-formed header collection whose names all carry a value
has the names of the collection and gives each name its first value. -/
theorem firstValues_spec (h : Header) (m : List (GoString × GoString))
    (hne : everyNameHasValue h) (hnd : (mapKeys h).Nodup) (hm : firstValues h = some m) :
    mapKeys m = mapKeys h
      ∧ ∀ name values, mapGet h name = some values → mapGet m name = values.head? := by
  rw [firstValues_eq h hne hnd] at hm
  cases hm
  refine ⟨mapKeys_map_first h, ?_⟩
  intro name values hget
  rw [mapGet_map_first, hget]
  have hvs : values ≠ [] := hne (name, values) (mapGet_mem h name values hget)
  cases values with
  | nil => exact absurd rfl hvs
  | cons v tl => rfl

/-- A header name without a value stops the assembly: `values[0]` panics in the
first or in the second header loop and no record is built. -/
theorem serveHTTP_log_none (env : Env) (p : logRequest) (w : ResponseWriter) (r : Request)
    (name : GoString)
    (h : (name, []) ∈ (ServeHTTP env p w r).request.Header
      ∨ (name, []) ∈ (ServeHTTP env p w r).sink.header) :
    (ServeHTTP env p w r).log = none := by
  rw [serveHTTP_sink_header, serveHTTP_request] at h
  rw [serveHTTP_log]
  rcases h with h | h
  · have hnone : firstValues (prepare env p r).request.Header = none :=
      foldlM_firstValuesStep_none _ [] name h
    simp [assemble, hnone]
  · have hnone : firstValues (afterWrite env p w r).w.header = none :=
      foldlM_firstValuesStep_none _ [] name h
    cases hfirst : firstValues (prepare env p r).request.Header with
    | none => simp [assemble, hfirst]
    | some headers => simp [assemble, hfirst, wrappedResponseWriter.Header, hnone]

theorem writeHeader_final (w : ResponseWriter) (code : Int) (hw : w.wrote = none)
    (hcode : code = 101 ∨ (200 ≤ code ∧ code ≤ 999)) :
    w.WriteHeader code = some
      { header := (writeFinalHeader w.header code).1,
        wrote := some
          { status := code, contentLength := declaredContentLength w.header, written := 0 },
        body := w.body,
        received := w.received ++ [SinkCall.WriteHeader code] } := by
  have hrange : ¬ (code < 100 ∨ code > 999) := by omega
  have hfinal : ¬ (100 ≤ code ∧ code ≤ 199 ∧ code ≠ 101) := by omega
  simp only [ResponseWriter.WriteHeader, hw, hrange, hfinal, if_false, writeFinalHeader_wrote]

/-- The method `Flush` on a sink without final status: when the recorded code is a
final status the sink accepts and the buffer is empty or a body the sink takes,
one `WriteHeader` and one `Write` reach the sink and nothing is printed. -/
theorem flush_fresh (resp : wrappedResponseWriter) (hw : resp.w.wrote = none)
    (hcode : resp.code = 101 ∨ (200 ≤ resp.code ∧ resp.code ≤ 999))
    (htaken : resp.buf = [] ∨
      (bodyAllowedForStatus resp.code = true
        ∧ ∀ n, declaredContentLength resp.w.header = some n → resp.buf.length ≤ n)) :
    ∃ flushed, resp.Flush = some (flushed, [])
      ∧ flushed.w.received
        = resp.w.received ++ (SinkCall.WriteHeader resp.code ::
          (if resp.buf = [] then [] else [SinkCall.Write resp.buf]))
      ∧ flushed.w.status = some resp.code
      ∧ flushed.w.body = resp.w.body ++ resp.buf := by
  obtain ⟨sink, hsink, hwrote, hbody, hreceived⟩ :
      ∃ sink, resp.w.WriteHeader resp.code = some sink
        ∧ sink.wrote = some
          { status := resp.code, contentLength := declaredContentLength resp.w.header,
            written := 0 }
        ∧ sink.body = resp.w.body
        ∧ sink.received = resp.w.received ++ [SinkCall.WriteHeader resp.code] :=
    ⟨_, writeHeader_final resp.w resp.code hw hcode, rfl, rfl, rfl⟩
  have htaken' : resp.buf = [] ∨
      (bodyAllowedForStatus resp.code = true
        ∧ ∀ n, declaredContentLength resp.w.header = some n → 0 + resp.buf.length ≤ n) := by
    rcases htaken with h | ⟨ha, hl⟩
    · exact Or.inl h
    · exact Or.inr ⟨ha, fun n hn => by have := hl n hn; omega⟩
  obtain ⟨hcopy, hcopied⟩ := copy_taken sink resp.buf _ hwrote htaken'
  obtain ⟨_, hwstatus, hwreceived⟩ := write_of_wrote sink resp.buf _ hwrote
  simp only [wrappedResponseWriter.Flush, hsink, hcopy]
  refine ⟨_, rfl, ?_, ?_, ?_⟩
  · by_cases he : resp.buf = []
    · simp [he, hreceived]
    · simp only [he, if_false]
      rw [hwreceived, hreceived]
      simp
  · by_cases he : resp.buf = []
    · simp [he, ResponseWriter.status, hwrote]
    · simp only [he, if_false]
      exact hwstatus
  · have := hcopied
    rw [hcopy] at this
    rw [this, hbody]

/-! ## The properties -/

/-- C1: running the test suite's error handler (status 500, one JSON body) on a
fresh sink leaves the client with status 200 and the body twice. -/
theorem serveHTTP_sends_200_and_body_twice :
    statusSet (errorHandler postRequest) = 500
      ∧ bytesWritten (errorHandler postRequest)
        = str "\x7b\"message\": \"Internal Server Error\"\x7d"
      ∧ (ServeHTTP testEnv
          (New errorHandler (prepareConfig [str "application/json"] 1024 [500]) (str "demo-plugin"))
          (freshSink []) postRequest).sink.status = some 200
      ∧ (ServeHTTP testEnv
          (New errorHandler (prepareConfig [str "application/json"] 1024 [500]) (str "demo-plugin"))
          (freshSink []) postRequest).sink.body
        = str "\x7b\"message\": \"Internal Server Error\"\x7d\x7b\"message\": \"Internal Server Error\"\x7d" := by
  decide

/-- C2: when the handler suppresses the `Date` header by assigning it no value, the
response header loop indexes an empty list: no record is assembled and nothing
is logged, although the handler answered normally. -/
theorem serveHTTP_panics_on_valueless_header :
    (ServeHTTP testEnv (New noDateHandler (prepareConfig [] 1024 []) (str "demo-plugin"))
        (freshSink []) getRequest).sink.header = [(str "Date", [])]
      ∧ (ServeHTTP testEnv (New noDateHandler (prepareConfig [] 1024 []) (str "demo-plugin"))
        (freshSink []) getRequest).log = none
      ∧ (ServeHTTP testEnv (New noDateHandler (prepareConfig [] 1024 []) (str "demo-plugin"))
        (freshSink []) getRequest).stdout = [] := by
  decide

/-- C9: `Write` and `WriteHeader` on the capture wrapper leave the real sink as it
was (status, body, headers and calls received); `Write` appends its bytes to the
buffer, keeps the code and returns `len(b)` with a nil error; `WriteHeader`
replaces the code and keeps the buffer. Hence after any sequence of handler
calls the real sink has been sent and has received what it had before. -/
theorem wrapper_calls_do_not_reach_sink (w : wrappedResponseWriter) (b : GoString) (c : Int)
    (cs : List Call) :
    (w.Write b).1.w = w.w ∧ (w.Write b).1.buf = w.buf ++ b ∧ (w.Write b).1.code = w.code
      ∧ (w.Write b).2 = (b.length, false)
      ∧ (w.WriteHeader c).w = w.w ∧ (w.WriteHeader c).buf = w.buf
      ∧ (w.WriteHeader c).code = c
      ∧ (w.calls cs).w.status = w.w.status ∧ (w.calls cs).w.body = w.w.body
      ∧ (w.calls cs).w.received = w.w.received := by
  refine ⟨rfl, rfl, rfl, rfl, rfl, rfl, rfl, ?_⟩
  exact calls_sent w cs

/-- C8, counterexample: the sink refuses what `Flush` hands it. With the recorded
code 0 the sink's `WriteHeader` panics, so neither status nor body is sent;
with 103 the status sent is 200 and not the recorded code; with 204 the status
is sent, the body is refused and an error line is printed. -/
theorem flush_refused_by_sink :
    ((newWrappedResponseWriter (freshSink [])).calls
        [Call.WriteHeader 0, Call.Write (str "x")]).Flush = none
      ∧ (((newWrappedResponseWriter (freshSink [])).calls
          [Call.WriteHeader 103, Call.Write (str "x")]).Flush).map
          (fun done => (done.1.w.status, done.1.w.body))
        = some (some 200, str "x")
      ∧ (((newWrappedResponseWriter (freshSink [])).calls
          [Call.WriteHeader 204, Call.Write (str "x")]).Flush).map
          (fun done => (done.1.w.status, done.1.w.body, done.2))
        = some (some 204, [], [ErrBodyNotAllowed ++ str "\n"]) := by
  decide

/-- C8, amended: on a real sink that has been sent no status and no body, when the
recorded code (that of the last `WriteHeader` on the wrapper, 200 without one)
is a final status the sink accepts, 101 or 200..999, and the written bytes are
empty or a body the sink takes (the code allows a body and the bytes do not
exceed the `Content-Length` the sink's headers declare), `Flush` of the wrapper
`ServeHTTP` builds, after any sequence of handler calls, returns without panic
and prints nothing; it makes exactly one `WriteHeader` call, with the recorded
code, followed by one `Write` of all written bytes in call order (no `Write`
when there are none); the sink then holds that status and body. -/
theorem flush_sends_status_then_body (sink : ResponseWriter) (cs : List Call)
    (hstatus : sink.status = none) (hbody : sink.body = [])
    (hcode : statusSet cs = 101 ∨ (200 ≤ statusSet cs ∧ statusSet cs ≤ 999))
    (htaken : bytesWritten cs = [] ∨
      (bodyAllowedForStatus (statusSet cs) = true
        ∧ ∀ n, declaredContentLength ((newWrappedResponseWriter sink).calls cs).w.header
            = some n → (bytesWritten cs).length ≤ n)) :
    ∃ flushed, ((newWrappedResponseWriter sink).calls cs).Flush = some (flushed, [])
      ∧ flushed.w.received
        = sink.received ++ (SinkCall.WriteHeader (statusSet cs) ::
          (if bytesWritten cs = [] then [] else [SinkCall.Write (bytesWritten cs)]))
      ∧ flushed.w.status = some (statusSet cs)
      ∧ flushed.w.body = bytesWritten cs := by
  obtain ⟨h1, h2, h3⟩ := calls_wrote (newWrappedResponseWriter sink) cs
  have hb : ((newWrappedResponseWriter sink).calls cs).buf = bytesWritten cs := by
    simp [calls_buf, newWrappedResponseWriter]
  have hc : ((newWrappedResponseWriter sink).calls cs).code = statusSet cs := by
    simp [calls_code, newWrappedResponseWriter, statusSet]
  have hwrote : ((newWrappedResponseWriter sink).calls cs).w.wrote = none :=
    h1.trans ((status_eq_none sink).mp hstatus)
  have hbody' : ((newWrappedResponseWriter sink).calls cs).w.body = [] := h2.trans hbody
  have hreceived : ((newWrappedResponseWriter sink).calls cs).w.received = sink.received := h3
  obtain ⟨flushed, hflush, hr, hs, hbd⟩ := flush_fresh ((newWrappedResponseWriter sink).calls cs)
    hwrote (by rw [hc]; exact hcode) (by rw [hc, hb]; exact htaken)
  rw [hc, hb, hreceived] at hr
  rw [hc] at hs
  rw [hb, hbody', List.nil_append] at hbd
  exact ⟨flushed, hflush, hr, hs, hbd⟩

/-- Witness of C8 as amended: status 404 and two writes reach a fresh sink as one
`WriteHeader 404` and one `Write` of the joined bytes. -/
theorem flush_sends_status_then_body_witness :
    ∃ flushed, ((newWrappedResponseWriter (freshSink [])).calls
        [Call.WriteHeader 404, Call.Write (str "not "), Call.Write (str "found")]).Flush
        = some (flushed, [])
      ∧ flushed.w.received = [SinkCall.WriteHeader 404, SinkCall.Write (str "not found")]
      ∧ flushed.w.status = some 404
      ∧ flushed.w.body = str "not found" := by
  have hnone : declaredContentLength ((newWrappedResponseWriter (freshSink [])).calls
      [Call.WriteHeader 404, Call.Write (str "not "), Call.Write (str "found")]).w.header
      = none := by decide
  obtain ⟨flushed, hflush, hreceived, hstatus, hbody⟩ :=
    flush_sends_status_then_body (freshSink [])
      [Call.WriteHeader 404, Call.Write (str "not "), Call.Write (str "found")] rfl rfl
      (by decide) (Or.inr ⟨by decide, fun n hn => nomatch hnone.symm.trans hn⟩)
  exact ⟨flushed, hflush, hreceived.trans (by decide), hstatus.trans (by decide),
    hbody.trans (by decide)⟩

/-- C3, counterexample: a handler that declares a `Content-Length` of 1 and writes
two bytes, answered with 200. The sink refuses the body and `Flush` prints the
error to standard output: with the status list `[500]` the output is not empty,
and with the empty list it holds two lines. -/
theorem error_line_on_standard_output :
    (ServeHTTP testEnv
        (New overlongHandler (prepareConfig [] 1024 [500]) (str "demo-plugin"))
        (freshSink []) getRequest).stdout
        = [str "http: wrote more than the declared Content-Length\n"]
      ∧ (ServeHTTP testEnv
        (New overlongHandler (prepareConfig [] 1024 []) (str "demo-plugin"))
        (freshSink []) getRequest).stdout
        = [str "\x7b\"request_id\":\"031425364758697a8b9cadbecfe0f102\"\x7d\n",
           str "http: wrote more than the declared Content-Length\n"] := by
  decide

/-- C3, amended: in a run whose header collections give every name a value, a record
is assembled, its status is the one the handler set, and standard output
receives the line `json + "\n"` exactly once, first, when the status list is
empty or contains that status, and not at all otherwise. What else it receives
is what the deferred `Flush` prints: nothing, or the one line of the error with
which the sink refused the body; and nothing when the sink had been sent no
status before and the response headers end without a `Content-Length`. -/
theorem log_line_iff_status_allowed (env : Env) (p : logRequest) (w : ResponseWriter)
    (r : Request)
    (hreq : everyNameHasValue (ServeHTTP env p w r).request.Header)
    (hres : everyNameHasValue (ServeHTTP env p w r).sink.header) :
    ∃ record printed, (ServeHTTP env p w r).log = some record
      ∧ record.Response.Status = statusSet (p.next (ServeHTTP env p w r).request)
      ∧ ((p.statusCodes = [] ∨ record.Response.Status ∈ p.statusCodes) →
          (ServeHTTP env p w r).stdout = (env.marshal record ++ str "\n") :: printed)
      ∧ (¬ (p.statusCodes = [] ∨ record.Response.Status ∈ p.statusCodes) →
          (ServeHTTP env p w r).stdout = printed)
      ∧ (printed = [] ∨ printed = [ErrBodyNotAllowed ++ str "\n"]
        ∨ printed = [ErrContentLength ++ str "\n"])
      ∧ (w.status = none →
          Header.Get (ServeHTTP env p w r).sink.header (str "Content-Length") = [] →
          printed = []) := by
  obtain ⟨headers, respHeaders, _, _, hlog⟩ := serveHTTP_record env p w r hreq hres
  obtain ⟨printed, hstdout, hprinted, hclean⟩ := serveHTTP_stdout env p w r
  refine ⟨_, printed, hlog, rfl, ?_, ?_, hprinted, hclean⟩
  · intro h
    rw [hstdout, hlog]
    simp only [captured_code]
    rw [if_pos ((allowStatusCode_iff _ _).mpr h)]
    rfl
  · intro h
    rw [hstdout, hlog]
    simp only [captured_code]
    rw [if_neg (fun h' => h ((allowStatusCode_iff _ _).mp h'))]
    rfl

/-- Witness of C3 as amended: with the status list `[500]` and a handler answering
200 nothing is written (`TestPostJsonWithStatusCodeFalse`); with an empty list
the same exchange writes one line. -/
theorem log_line_iff_status_allowed_witness :
    (ServeHTTP testEnv
        (New okHandler (prepareConfig [str "application/json"] 1024 [500]) (str "demo-plugin"))
        (freshSink []) postRequest).stdout = []
      ∧ (ServeHTTP testEnv
        (New okHandler (prepareConfig [str "application/json"] 1024 []) (str "demo-plugin"))
        (freshSink []) postRequest).stdout
        = [str "\x7b\"request_id\":\"031425364758697a8b9cadbecfe0f102\"\x7d\n"] := by
  obtain ⟨record, printed, _, hstatus, _, hno, _, hclean⟩ := log_line_iff_status_allowed testEnv
    (New okHandler (prepareConfig [str "application/json"] 1024 [500]) (str "demo-plugin"))
    (freshSink []) postRequest (by decide) (by decide)
  obtain ⟨record2, printed2, hlog2, _, hyes, _, _, hclean2⟩ :=
    log_line_iff_status_allowed testEnv
    (New okHandler (prepareConfig [str "application/json"] 1024 []) (str "demo-plugin"))
    (freshSink []) postRequest (by decide) (by decide)
  have hprinted : printed = [] := hclean rfl (by decide)
  have hprinted2 : printed2 = [] := hclean2 rfl (by decide)
  refine ⟨?_, ?_⟩
  · rw [hno (by rw [hstatus]; decide), hprinted]
  · rw [hyes (Or.inl rfl), hprinted2]
    have hrecord : some record2 = (ServeHTTP testEnv
        (New okHandler (prepareConfig [str "application/json"] 1024 []) (str "demo-plugin"))
        (freshSink []) postRequest).log := hlog2.symm
    have hid : (some record2).map (fun l => l.RequestID)
        = some (str "031425364758697a8b9cadbecfe0f102") := by
      rw [hrecord]
      decide
    simp only [Option.map_some', Option.some.injEq] at hid
    simp only [testEnv, hid]
    decide

/-- C4, counterexample: with the content-type list `[""]` and a request that sets
no `Content-Type`, the two-byte body `hi` is within the limit and its content
type, the empty string, equals an entry of the list; the record still carries
the placeholder and not `hi`. -/
theorem empty_content_type_is_not_accepted :
    (prepare testEnv (New okHandler (prepareConfig [str ""] 1024 []) (str "demo-plugin"))
        { postRequest with Body := some { data := str "hi", failAfter := none } }).requestBody
        = str "hi"
      ∧ (((str "hi").length : Nat) : Int)
        ≤ (New okHandler (prepareConfig [str ""] 1024 []) (str "demo-plugin")).maxBodySize
      ∧ Header.Get (ServeHTTP testEnv
          (New okHandler (prepareConfig [str ""] 1024 []) (str "demo-plugin")) (freshSink [])
          { postRequest with Body := some { data := str "hi", failAfter := none } }).request.Header
          (str "Content-Type")
        ∈ (New okHandler (prepareConfig [str ""] 1024 []) (str "demo-plugin")).contentTypes
      ∧ (ServeHTTP testEnv
          (New okHandler (prepareConfig [str ""] 1024 []) (str "demo-plugin")) (freshSink [])
          { postRequest with Body := some { data := str "hi", failAfter := none } }).log.map
          (fun record => record.Request.Body)
        = some (str "Request body too large to log or wrong content type. Size: 2 bytes, Content-type: ")
      ∧ (ServeHTTP testEnv
          (New okHandler (prepareConfig [str ""] 1024 []) (str "demo-plugin")) (freshSink [])
          { postRequest with Body := some { data := str "hi", failAfter := none } }).log.map
          (fun record => record.Request.Body)
        ≠ some (str "hi") := by
  decide

/-- C4, amended: in a run whose header collections give every name a value, the
record carries the literal request body when its length is at most the maximum
and the content-type list is empty or the request's `Content-Type` is non-empty
and equal to one of its entries; and likewise the literal response body, judged
by the response's `Content-Type`. -/
theorem body_logged_when_accepted (env : Env) (p : logRequest) (w : ResponseWriter)
    (r : Request)
    (hreq : everyNameHasValue (ServeHTTP env p w r).request.Header)
    (hres : everyNameHasValue (ServeHTTP env p w r).sink.header) :
    ∃ record, (ServeHTTP env p w r).log = some record
      ∧ (((prepare env p r).requestBody.length : Int) ≤ p.maxBodySize →
          (p.contentTypes = [] ∨
            (Header.Get (ServeHTTP env p w r).request.Header (str "Content-Type") ≠ []
              ∧ Header.Get (ServeHTTP env p w r).request.Header (str "Content-Type")
                ∈ p.contentTypes)) →
          record.Request.Body = (prepare env p r).requestBody)
      ∧ (((bytesWritten (p.next (ServeHTTP env p w r).request)).length : Int) ≤ p.maxBodySize →
          (p.contentTypes = [] ∨
            (Header.Get (ServeHTTP env p w r).sink.header (str "Content-Type") ≠ []
              ∧ Header.Get (ServeHTTP env p w r).sink.header (str "Content-Type")
                ∈ p.contentTypes)) →
          record.Response.Body = bytesWritten (p.next (ServeHTTP env p w r).request)) := by
  obtain ⟨headers, respHeaders, _, _, hlog⟩ := serveHTTP_record env p w r hreq hres
  refine ⟨_, hlog, ?_, ?_⟩
  · intro hsize hct
    have h1 := (allowBodySize_iff _ _).mpr hsize
    have h2 := (allowContentType_iff _ _).mpr hct
    simp [h1, h2]
  · intro hsize hct
    have h1 := (allowBodySize_iff _ _).mpr hsize
    have h2 := (allowContentType_iff _ _).mpr hct
    rw [serveHTTP_request] at h1
    simp [h1, h2, serveHTTP_request]

/-- Witness of C4 as amended: `TestPostJsonWithContentType`, where request and
response both carry `application/json` and fit the limit of 1024 bytes. -/
theorem body_logged_when_accepted_witness :
    everyNameHasValue (ServeHTTP testEnv
        (New okHandler (prepareConfig [str "application/json"] 1024 []) (str "demo-plugin"))
        (freshSink [])
        { postRequest with Header := [(str "Content-Type", [str "application/json"])] }).request.Header
      ∧ everyNameHasValue (ServeHTTP testEnv
        (New okHandler (prepareConfig [str "application/json"] 1024 []) (str "demo-plugin"))
        (freshSink [])
        { postRequest with Header := [(str "Content-Type", [str "application/json"])] }).sink.header
      ∧ ∃ record, (ServeHTTP testEnv
          (New okHandler (prepareConfig [str "application/json"] 1024 []) (str "demo-plugin"))
          (freshSink [])
          { postRequest with Header := [(str "Content-Type", [str "application/json"])] }).log
          = some record
        ∧ record.Request.Body = str "\x7b\"message\": \"hello\"\x7d"
        ∧ record.Response.Body = str "\x7b\"message\": \"OK\"\x7d" := by
  have hreq : everyNameHasValue (ServeHTTP testEnv
      (New okHandler (prepareConfig [str "application/json"] 1024 []) (str "demo-plugin"))
      (freshSink [])
      { postRequest with Header := [(str "Content-Type", [str "application/json"])] }).request.Header := by
    decide
  have hres : everyNameHasValue (ServeHTTP testEnv
      (New okHandler (prepareConfig [str "application/json"] 1024 []) (str "demo-plugin"))
      (freshSink [])
      { postRequest with Header := [(str "Content-Type", [str "application/json"])] }).sink.header := by
    decide
  obtain ⟨record, hlog, hrequest, hresponse⟩ := body_logged_when_accepted testEnv
    (New okHandler (prepareConfig [str "application/json"] 1024 []) (str "demo-plugin"))
    (freshSink [])
    { postRequest with Header := [(str "Content-Type", [str "application/json"])] } hreq hres
  refine ⟨hreq, hres, record, hlog, ?_, ?_⟩
  · rw [hrequest (by decide) (by decide)]
    decide
  · rw [hresponse (by decide) (by decide)]
    decide


/-- C5: in a run whose header collections give every name a value, when the request
body is longer than the maximum, or the content-type list is non-empty and has
no entry equal to the request's `Content-Type`, the record's request body is
exactly `Request body too large to log or wrong content type. Size: n bytes,
Content-type: ct`, with `n` the body length in decimal and `ct` the
`Content-Type`, which is empty when the header is unset; the response body is
treated alike with the text starting with `Response`. The body enters the text
through its length only. -/
theorem placeholder_logged_when_rejected (env : Env) (p : logRequest) (w : ResponseWriter)
    (r : Request)
    (hreq : everyNameHasValue (ServeHTTP env p w r).request.Header)
    (hres : everyNameHasValue (ServeHTTP env p w r).sink.header) :
    ∃ record, (ServeHTTP env p w r).log = some record
      ∧ ((p.maxBodySize < ((prepare env p r).requestBody.length : Int)
            ∨ (p.contentTypes ≠ []
              ∧ Header.Get (ServeHTTP env p w r).request.Header (str "Content-Type")
                ∉ p.contentTypes)) →
          record.Request.Body
            = str "Request body too large to log or wrong content type. Size: "
              ++ str (toString (prepare env p r).requestBody.length)
              ++ str " bytes, Content-type: "
              ++ Header.Get (ServeHTTP env p w r).request.Header (str "Content-Type"))
      ∧ ((p.maxBodySize < ((bytesWritten (p.next (ServeHTTP env p w r).request)).length : Int)
            ∨ (p.contentTypes ≠ []
              ∧ Header.Get (ServeHTTP env p w r).sink.header (str "Content-Type")
                ∉ p.contentTypes)) →
          record.Response.Body
            = str "Response body too large to log or wrong content type. Size: "
              ++ str (toString (bytesWritten (p.next (ServeHTTP env p w r).request)).length)
              ++ str " bytes, Content-type: "
              ++ Header.Get (ServeHTTP env p w r).sink.header (str "Content-Type"))
      ∧ (mapGet (ServeHTTP env p w r).request.Header (str "Content-Type") = none →
          Header.Get (ServeHTTP env p w r).request.Header (str "Content-Type") = [])
      ∧ (mapGet (ServeHTTP env p w r).sink.header (str "Content-Type") = none →
          Header.Get (ServeHTTP env p w r).sink.header (str "Content-Type") = []) := by
  obtain ⟨headers, respHeaders, _, _, hlog⟩ := serveHTTP_record env p w r hreq hres
  have hkey : CanonicalMIMEHeaderKey (str "Content-Type") = str "Content-Type" := by decide
  have hrejected : ∀ (size : Nat) (ct : GoString),
      (p.maxBodySize < (size : Int) ∨ (p.contentTypes ≠ [] ∧ ct ∉ p.contentTypes)) →
      ¬ ((allowBodySize size p.maxBodySize && allowContentType ct p.contentTypes) = true) := by
    intro size ct hcond hallow
    rw [Bool.and_eq_true, allowBodySize_iff, allowContentType_iff] at hallow
    rcases hcond with hsize | ⟨hne, hnot⟩
    · omega
    · rcases hallow.2 with hnil | ⟨_, hmem⟩
      · exact hne hnil
      · exact hnot hmem
  refine ⟨_, hlog, ?_, ?_, ?_, ?_⟩
  · intro hcond
    simp only [if_neg (hrejected _ _ hcond)]
    exact sprintf_request _ _
  · intro hcond
    rw [serveHTTP_request] at hcond
    simp only [if_neg (hrejected _ _ hcond)]
    rw [serveHTTP_request]
    exact sprintf_response _ _
  · intro hnone
    simp [Header.Get, hkey, hnone]
  · intro hnone
    simp [Header.Get, hkey, hnone]

/-- Witness of C5: `TestPostJsonWithBodyLimit`, a 20-byte body on both sides with
a maximum of 5; the request sets no `Content-Type`. -/
theorem placeholder_logged_when_rejected_witness :
    everyNameHasValue (ServeHTTP testEnv
        (New okHandler (prepareConfig [str "application/json"] 5 []) (str "demo-plugin"))
        (freshSink []) postRequest).request.Header
      ∧ everyNameHasValue (ServeHTTP testEnv
        (New okHandler (prepareConfig [str "application/json"] 5 []) (str "demo-plugin"))
        (freshSink []) postRequest).sink.header
      ∧ ∃ record, (ServeHTTP testEnv
          (New okHandler (prepareConfig [str "application/json"] 5 []) (str "demo-plugin"))
          (freshSink []) postRequest).log = some record
        ∧ record.Request.Body
          = str "Request body too large to log or wrong content type. Size: 20 bytes, Content-type: "
        ∧ record.Response.Body
          = str "Response body too large to log or wrong content type. Size: 17 bytes, Content-type: application/json" := by
  have hreq : everyNameHasValue (ServeHTTP testEnv
      (New okHandler (prepareConfig [str "application/json"] 5 []) (str "demo-plugin"))
      (freshSink []) postRequest).request.Header := by decide
  have hres : everyNameHasValue (ServeHTTP testEnv
      (New okHandler (prepareConfig [str "application/json"] 5 []) (str "demo-plugin"))
      (freshSink []) postRequest).sink.header := by decide
  obtain ⟨record, hlog, hrequest, hresponse, _, _⟩ := placeholder_logged_when_rejected testEnv
    (New okHandler (prepareConfig [str "application/json"] 5 []) (str "demo-plugin"))
    (freshSink []) postRequest hreq hres
  refine ⟨hreq, hres, record, hlog, ?_, ?_⟩
  · rw [hrequest (Or.inl (by decide))]
    decide
  · rw [hresponse (Or.inl (by decide))]
    decide

/-- C6: after `ServeHTTP` the request's header under the configured name is the
value the caller supplied when that was non-empty; when it was absent or empty
and the random source delivers, it is the hex encoding of the 16 random bytes,
32 characters each among `0123456789abcdef`. In a run whose header collections
give every name a value, the record's `request_id` is that same string. -/
theorem correlation_id_propagated (env : Env) (p : logRequest) (w : ResponseWriter)
    (r : Request) :
    (Header.Get r.Header p.requestIDHeaderName ≠ [] →
        Header.Get (ServeHTTP env p w r).request.Header p.requestIDHeaderName
          = Header.Get r.Header p.requestIDHeaderName)
      ∧ (Header.Get r.Header p.requestIDHeaderName = [] → ∀ next, env.rand = some next →
          Header.Get (ServeHTTP env p w r).request.Header p.requestIDHeaderName
            = hex.EncodeToString ((List.range 16).map next)
          ∧ (Header.Get (ServeHTTP env p w r).request.Header p.requestIDHeaderName).length = 32
          ∧ ∀ c ∈ Header.Get (ServeHTTP env p w r).request.Header p.requestIDHeaderName,
              c ∈ str "0123456789abcdef")
      ∧ (everyNameHasValue (ServeHTTP env p w r).request.Header →
          everyNameHasValue (ServeHTTP env p w r).sink.header →
          ∃ record, (ServeHTTP env p w r).log = some record
            ∧ record.RequestID
              = Header.Get (ServeHTTP env p w r).request.Header p.requestIDHeaderName) := by
  have hget : Header.Get (ServeHTTP env p w r).request.Header p.requestIDHeaderName
      = (prepare env p r).requestID := by
    rw [serveHTTP_request, prepare_header, header_get_set]
  refine ⟨?_, ?_, ?_⟩
  · intro hsupplied
    rw [hget, prepare_requestID, if_pos hsupplied]
  · intro habsent next hrand
    have hid : (prepare env p r).requestID = hex.EncodeToString ((List.range 16).map next) := by
      rw [prepare_requestID, if_neg (fun h => h habsent)]
      simp [generateRandomID, rand.Read, hrand]
    rw [hget, hid]
    refine ⟨rfl, ?_, ?_⟩
    · rw [hex_length]; simp
    · exact hex_digits _
  · intro hreq hres
    obtain ⟨headers, respHeaders, _, _, hlog⟩ := serveHTTP_record env p w r hreq hres
    exact ⟨_, hlog, hget.symm⟩

/-- Witness of C6: a caller-supplied `abc` is kept, and without the header the
test environment's 16 random bytes give a 32-character hex string. -/
theorem correlation_id_propagated_witness :
    Header.Get (ServeHTTP testEnv
        (New okHandler (prepareConfig [] 1024 []) (str "demo-plugin")) (freshSink [])
        { getRequest with Header := [(str "X-Request-Id", [str "abc"])] }).request.Header
        (str "X-Request-ID") = str "abc"
      ∧ Header.Get (ServeHTTP testEnv
        (New okHandler (prepareConfig [] 1024 []) (str "demo-plugin")) (freshSink [])
        getRequest).request.Header (str "X-Request-ID")
        = str "031425364758697a8b9cadbecfe0f102" := by
  constructor
  · exact ((correlation_id_propagated testEnv
      (New okHandler (prepareConfig [] 1024 []) (str "demo-plugin")) (freshSink [])
      { getRequest with Header := [(str "X-Request-Id", [str "abc"])] }).1 (by decide)).trans
      (by decide)
  · exact ((correlation_id_propagated testEnv
      (New okHandler (prepareConfig [] 1024 []) (str "demo-plugin")) (freshSink [])
      getRequest).2.1 (by decide) (fun i => Fin.ofNat (17 * i + 3)) rfl).1.trans (by decide)

/-- C7: when the inbound body is read without error, the request passed to the next
handler has a body whose reading yields, without error, exactly the inbound
bytes, and no bytes when the inbound request has no body; the next handler is
called on that request and on no other. -/
theorem handler_reads_inbound_body (env : Env) (p : logRequest) (w : ResponseWriter)
    (r : Request) (hread : ∀ body, r.Body = some body → body.failAfter = none) :
    ∃ given, (prepare env p r).request.Body = some given
      ∧ (r.Body = none → io.ReadAll given = ([], false))
      ∧ (∀ body, r.Body = some body → io.ReadAll given = (body.data, false))
      ∧ ServeHTTP env p w r
        = ServeHTTP env { p with next := fun _ => p.next (prepare env p r).request } w r := by
  refine ⟨_, rfl, ?_, ?_, rfl⟩
  · intro hnone
    simp [io.ReadAll, io.NopCloser, hnone]
  · intro body hsome
    simp [io.ReadAll, io.NopCloser, hsome, hread body hsome]

/-- Witness of C7: the POST request of the tests reaches the handler with a body
that reads as the 20 bytes sent. -/
theorem handler_reads_inbound_body_witness :
    ∃ given, (prepare testEnv (New okHandler (prepareConfig [] 1024 []) (str "demo-plugin"))
        postRequest).request.Body = some given
      ∧ io.ReadAll given = (str "\x7b\"message\": \"hello\"\x7d", false) := by
  obtain ⟨given, hgiven, _, hsome, _⟩ := handler_reads_inbound_body testEnv
    (New okHandler (prepareConfig [] 1024 []) (str "demo-plugin")) (freshSink []) postRequest
    (by intro body h; cases h; rfl)
  exact ⟨given, hgiven, hsome _ rfl⟩

/-- C10: in a run whose request and response header collections are maps in which
every name carries a value, the record's header maps have exactly the names of
those collections and give each name the first of its values. -/
theorem header_maps_take_first_values (env : Env) (p : logRequest) (w : ResponseWriter)
    (r : Request)
    (hreq : everyNameHasValue (ServeHTTP env p w r).request.Header)
    (hres : everyNameHasValue (ServeHTTP env p w r).sink.header)
    (hreqKeys : (mapKeys (ServeHTTP env p w r).request.Header).Nodup)
    (hresKeys : (mapKeys (ServeHTTP env p w r).sink.header).Nodup) :
    ∃ record, (ServeHTTP env p w r).log = some record
      ∧ mapKeys record.Request.Headers = mapKeys (ServeHTTP env p w r).request.Header
      ∧ (∀ name values, mapGet (ServeHTTP env p w r).request.Header name = some values →
          mapGet record.Request.Headers name = values.head?)
      ∧ mapKeys record.Response.Headers = mapKeys (ServeHTTP env p w r).sink.header
      ∧ (∀ name values, mapGet (ServeHTTP env p w r).sink.header name = some values →
          mapGet record.Response.Headers name = values.head?) := by
  obtain ⟨headers, respHeaders, h1, h2, hlog⟩ := serveHTTP_record env p w r hreq hres
  obtain ⟨hk1, hv1⟩ := firstValues_spec _ headers hreq hreqKeys h1
  obtain ⟨hk2, hv2⟩ := firstValues_spec _ respHeaders hres hresKeys h2
  exact ⟨_, hlog, hk1, hv1, hk2, hv2⟩

/-- Witness of C10: a request that repeats `Accept` is logged with the first value
only, next to the correlation header; the response map holds the handler's
`Content-Type`. -/
theorem header_maps_take_first_values_witness :
    ∃ record, (ServeHTTP testEnv
        (New okHandler (prepareConfig [] 1024 []) (str "demo-plugin")) (freshSink [])
        { getRequest with
          Header := [(str "Accept", [str "text/html", str "application/json"])] }).log
          = some record
      ∧ mapKeys record.Request.Headers = [str "Accept", str "X-Request-Id"]
      ∧ mapGet record.Request.Headers (str "Accept") = some (str "text/html")
      ∧ mapKeys record.Response.Headers = [str "Content-Type"]
      ∧ mapGet record.Response.Headers (str "Content-Type") = some (str "application/json") := by
  obtain ⟨record, hlog, hk1, hv1, hk2, hv2⟩ := header_maps_take_first_values testEnv
    (New okHandler (prepareConfig [] 1024 []) (str "demo-plugin")) (freshSink [])
    { getRequest with Header := [(str "Accept", [str "text/html", str "application/json"])] }
    (by decide) (by decide) (by decide) (by decide)
  refine ⟨record, hlog, hk1.trans (by decide), ?_, hk2.trans (by decide), ?_⟩
  · exact hv1 (str "Accept") [str "text/html", str "application/json"] (by decide)
  · exact hv2 (str "Content-Type") [str "application/json"] (by decide)


end RequestLogger
